import Mathlib

/-
Verification development for the blendwatch move-detection engine.

The embedding translates, from the Python sources:
  * `src/blendwatch/core/watcher.py`   (MoveTrackingHandler: the correlator)
  * `src/blendwatch/core/file_index.py` (FileIndex.record_creation and friends)
  * `src/blendwatch/utils/path_utils.py` (filters)
  * `src/blendwatch/watcher.py`        (legacy handler: pattern compilation)

Modelling conventions:
  * A filesystem path is its list of segments (`FsPath`); Python's
    `str.startswith` on paths is segment-prefix, `Path.parent` is `dropLast`,
    `Path.name` is the last segment, `Path.suffix` is computed from the name
    by the same last-dot rule pathlib uses.
  * Wall-clock instants (`time.time()`, `datetime.now()`) are integers (the
    code only subtracts and compares them, so any ordered abelian group of
    instants is faithful); each
    raw notification carries the instant at which it is handled.
  * `stat` and `glob` are abstracted into an `Fs` record passed with each
    notification: `stat` returns the size of an existing file (`none` models
    both a vanished path and an `OSError`, the two cases the code folds
    together), `files` lists the existing files in listing order.
  * Python dicts are association lists with dict semantics: updating an
    existing key keeps its position, insertion appends.
  * Regular-expression objects are abstracted to their matching function;
    a malformed pattern (one `re.compile` / `re.search` would reject) is
    modelled by `none` in the dedicated `RePat` type used for the
    error-handling development.
-/

namespace Blendwatch

/-- Python `str.lower()`, per character (kernel-reducible form). -/
def strLower (s : String) : String := String.mk (s.toList.map Char.toLower)

/-- Python `str.endswith(suf)` (kernel-reducible form). -/
def strEndsWith (s suf : String) : Bool := suf.toList.isSuffixOf s.toList

/-- Python `str.startswith(pre)` (kernel-reducible form). -/
def strStartsWith (s pre : String) : Bool := pre.toList.isPrefixOf s.toList

/-- Segment-list model of a filesystem path. -/
abbrev FsPath := List String

/-- Python `Path(p).name`: the final segment (empty for the empty path). -/
def pathName (p : FsPath) : String := p.getLast?.getD ""

/-- Python `Path(p).parent`: all but the final segment. -/
def pathParent (p : FsPath) : FsPath := p.dropLast

/-- Python `PurePath.suffix`: the substring of the name from its last dot,
provided that dot is neither the first nor the last character. -/
def pySuffix (name : String) : String :=
  let cs := name.toList
  match cs.reverse.findIdx? (fun c => c = '.') with
  | none => ""
  | some rk =>
    let i := cs.length - 1 - rk
    if 0 < i ∧ i < cs.length - 1 then String.mk (cs.drop i) else ""

/-- Lower-cased extension of a path, as `Path(p).suffix.lower()`. -/
def pathExt (p : FsPath) : String := strLower (pySuffix (pathName p))

/-- Suffixes of Blender backup files, from `should_track_file`. -/
def blendBackupSuffixes : List String :=
  [".blend1", ".blend2", ".blend3", ".blend4", ".blend5",
   ".blend6", ".blend7", ".blend8", ".blend9"]

/-- Handler configuration: extensions are stored lower-cased (the handler
lower-cases them in `__init__`), ignore patterns are abstracted to their
matching functions, `timeout` is `event_correlation_timeout`. -/
structure Config where
  extensions : List String
  ignoreMatchers : List (FsPath → Bool)
  timeout : ℤ

/-- Translation of `path_utils.is_path_ignored` / `should_ignore_path`:
some configured pattern matches the path. -/
def shouldIgnorePath (matchers : List (FsPath → Bool)) (p : FsPath) : Bool :=
  matchers.any (fun m => m p)

/-- Translation of `MoveTrackingHandler.should_track_file`. -/
def shouldTrackFile (extensions : List String) (p : FsPath) : Bool :=
  if extensions.isEmpty then true
  else
    let fileExt := pathExt p
    if ¬ (fileExt ∈ extensions) then false
    else if fileExt = ".blend" then
      let filename := pathName p
      if blendBackupSuffixes.any (fun s => strEndsWith filename s) then false
      else if strEndsWith filename ".blend@" then false
      else true
    else true

/-- Abstract filesystem snapshot delivered with a notification: `stat`
gives the size of an existing file (`none` for a vanished or unreadable
path), `files` is the glob universe in listing order. -/
structure Fs where
  stat : FsPath → Option ℕ
  files : List FsPath

/-- Translation of `path_utils.find_files_by_extension` (recursive case):
for each configured extension, the existing files strictly below `dir`
whose name ends with the (dot-prefixed) extension. -/
def findFilesByExtension (fs : Fs) (dir : FsPath) (extensions : List String) :
    List FsPath :=
  (extensions.map (fun ext =>
    let e := if strStartsWith ext "." then ext else "." ++ ext
    fs.files.filter (fun p =>
      dir.isPrefixOf p && !(p == dir) && strEndsWith (pathName p) e))).flatten

/-- Size component of `_get_file_info`: the stat size, or 0 when the path
is gone or stat raises. -/
def fileSize (fs : Fs) (p : FsPath) : ℕ := (fs.stat p).getD 0

/-- Translation of `MoveTrackingHandler._get_file_info`. -/
def getFileInfo (fs : Fs) (p : FsPath) : String × String × ℕ :=
  (pathName p, pathExt p, fileSize fs p)

/-- Kinds of move events the handler ever appends to `move_events`
(the `type` field of a logged move dict). -/
inductive EventType
  | fileMoved
  | fileRenamed
  | directoryMoved
  | directoryRenamed
  deriving DecidableEq, Repr

/-- Exactly the `renamed` kinds. -/
def EventType.isRenamed : EventType → Bool
  | .fileRenamed => true
  | .directoryRenamed => true
  | _ => false

/-- A logged move event (an entry of `move_events` carrying `old_path` and
`new_path`); `time` models both the ISO `timestamp` the dict stores and the
instant it parses back to in chain detection. -/
structure MoveEventRec where
  time : ℤ
  etype : EventType
  oldPath : FsPath
  newPath : FsPath
  oldName : String
  newName : String
  isDirectory : Bool
  correlated : Bool
  chainMove : Bool
  deriving DecidableEq, Repr

/-- A pending delete/create record (the dict stored in `pending_deletes` /
`pending_creates`): its timestamp, path, directory flag, whether it is a
delete (`type` is `file_deleted`/`directory_deleted`) and the `unmatched`
mark that `flush_pending_events` adds. -/
structure PendingData where
  time : ℤ
  path : FsPath
  isDirectory : Bool
  isDelete : Bool
  unmatched : Bool
  deriving DecidableEq, Repr

/-- Handler state: `move_events`, the two pending tables, the recent
directory-move table and the processed-file markers, all with Python dict
iteration order. -/
structure HState where
  moveEvents : List MoveEventRec
  pendingDeletes : List (FsPath × PendingData)
  pendingCreates : List (FsPath × PendingData)
  recentDirectoryMoves : List (FsPath × FsPath)
  directoryProcessedFiles : List (FsPath × ℤ)
  deriving DecidableEq, Repr

/-- State of a freshly constructed handler. -/
def initialState : HState :=
  { moveEvents := [], pendingDeletes := [], pendingCreates := [],
    recentDirectoryMoves := [], directoryProcessedFiles := [] }

/-- Python `d[k] = v`: replace in place if the key exists, else append. -/
def dictInsert {β : Type} (k : FsPath) (v : β) (d : List (FsPath × β)) :
    List (FsPath × β) :=
  if d.any (fun kv => kv.1 == k) then
    d.map (fun kv => if kv.1 = k then (k, v) else kv)
  else d ++ [(k, v)]

/-- Python `del d[k]` (no-op on a missing key, which the code never does
without checking). -/
def dictDelete {β : Type} (k : FsPath) (d : List (FsPath × β)) :
    List (FsPath × β) :=
  d.filter (fun kv => !(kv.1 == k))

/-- Python `d.get(k)` / `d[k]` on the first (unique) matching key. -/
def dictFind {β : Type} (k : FsPath) (d : List (FsPath × β)) : Option β :=
  (d.find? (fun kv => kv.1 == k)).map (fun kv => kv.2)

/-- Python `l[-n:]`. -/
def lastN {α : Type} (n : ℕ) (l : List α) : List α := l.drop (l.length - n)

/-- Translation of `_clean_expired_events`: drop expired pending deletes and
creates (older than the timeout), expired processed markers (older than three
timeouts), and the oldest half of the directory-move table past 20 entries. -/
def cleanExpiredEvents (timeout now : ℤ) (s : HState) : HState :=
  { s with
    pendingDeletes :=
      s.pendingDeletes.filter (fun kv => !(decide (now - kv.2.time > timeout))),
    pendingCreates :=
      s.pendingCreates.filter (fun kv => !(decide (now - kv.2.time > timeout))),
    directoryProcessedFiles :=
      s.directoryProcessedFiles.filter
        (fun kv => !(decide (now - kv.2 > timeout * 3))),
    recentDirectoryMoves :=
      if s.recentDirectoryMoves.length > 20 then
        s.recentDirectoryMoves.drop (s.recentDirectoryMoves.length / 2)
      else s.recentDirectoryMoves }

/-- First marker check of `_try_correlate_events`: the path has a
processed-file marker younger than twice the timeout. -/
def processedValid (timeout now : ℤ) (s : HState) (p : FsPath) : Bool :=
  match dictFind p s.directoryProcessedFiles with
  | some t => decide (now - t < timeout * 2)
  | none => false

/-- Second marker scan of the create branch (the `processed_match` loop,
which re-checks the same table with normalized paths). -/
def processedMatch (timeout now : ℤ) (s : HState) (p : FsPath) : Bool :=
  s.directoryProcessedFiles.any
    (fun kv => kv.1 == p && decide (now - kv.2 < timeout * 2))

/-- Chain-move candidates (`recent_locations`): processed markers younger
than twice the timeout with the same filename and a different path, followed
by the new paths of the last ten move events, most recent first, with the
same `new_name`, a different path, and a young enough timestamp. -/
def recentLocations (timeout now : ℤ) (s : HState) (p : FsPath) :
    List FsPath :=
  ((s.directoryProcessedFiles.filter (fun kv =>
      decide (now - kv.2 < timeout * 2) && pathName kv.1 == pathName p
        && !(kv.1 == p))).map (fun kv => kv.1))
  ++ (((lastN 10 s.moveEvents).reverse.filter (fun e =>
      e.newName == pathName p && !(e.newPath == p)
        && decide (now - e.time < timeout * 2))).map (fun e => e.newPath))

/-- Chain move event as built in the create branch (`chain_move: True`). -/
def mkChainEvent (now : ℤ) (q p : FsPath) : MoveEventRec :=
  { time := now,
    etype := if pathParent q = pathParent p then .fileRenamed else .fileMoved,
    oldPath := q, newPath := p,
    oldName := pathName q, newName := pathName p,
    isDirectory := false, correlated := true, chainMove := true }

/-- Correlated move event as built when a pending delete matches a create. -/
def mkCorrEvent (now : ℤ) (delPath p : FsPath) (isDir : Bool) : MoveEventRec :=
  { time := now,
    etype :=
      if pathParent delPath = pathParent p then
        (if isDir then .directoryRenamed else .fileRenamed)
      else
        (if isDir then .directoryMoved else .fileMoved),
    oldPath := delPath, newPath := p,
    oldName := pathName delPath, newName := pathName p,
    isDirectory := isDir, correlated := true, chainMove := false }

/-- Direct move event as built at the end of `on_moved` for a file move. -/
def mkDirectEvent (now : ℤ) (src dest : FsPath) : MoveEventRec :=
  { time := now,
    etype :=
      if pathParent src = pathParent dest then .fileRenamed else .fileMoved,
    oldPath := src, newPath := dest,
    oldName := pathName src, newName := pathName dest,
    isDirectory := false, correlated := false, chainMove := false }

/-- Per-file event of a directory-move expansion: always `file_moved`,
with both `old_name` and `new_name` taken from the new file. -/
def mkExpansionEvent (now : ℤ) (src dest f : FsPath) : MoveEventRec :=
  { time := now, etype := .fileMoved,
    oldPath := src ++ f.drop dest.length, newPath := f,
    oldName := pathName f, newName := pathName f,
    isDirectory := false, correlated := false, chainMove := false }

/-- Whether the match is explained by a recorded directory move (the
`file_move_is_directory_related` loop: the delete path lies under a recorded
old directory and the create path under the corresponding new directory; the
second, relative-path comparison in the source is only reached when this
first test failed and repeats the same prefix tests, so it never fires in the
segment model). -/
def dirRelated (s : HState) (delPath p : FsPath) : Bool :=
  s.recentDirectoryMoves.any
    (fun od => od.1.isPrefixOf delPath && od.2.isPrefixOf p)

/-- Pending-delete scan of the create branch: walk `pending_deletes` in
insertion order; skip entries whose path has a valid processed marker; on the
first entry with matching extension inside the timing window and name/size
confidence (the source's `same_name`, `similar_size` and `no_delete_size`
locals, inlined here), either suppress (directory-related) or build the move
event. Returns the matched key and the event to log, if any. -/
def scanPendingDeletes (cfg : Config) (fs : Fs) (now : ℤ) (s : HState)
    (p : FsPath) (isDir : Bool) :
    List (FsPath × PendingData) → Option (FsPath × Option MoveEventRec)
  | [] => none
  | (delPath, dd) :: rest =>
    if processedValid cfg.timeout now s delPath then
      scanPendingDeletes cfg fs now s p isDir rest
    else
      if pathExt delPath = pathExt p ∧ |now - dd.time| ≤ cfg.timeout then
        if pathName delPath == pathName p
            || (if fileSize fs delPath > 0 then
                  decide ((fileSize fs delPath : ℤ) - (fileSize fs p : ℤ) < 1024
                    ∧ (fileSize fs p : ℤ) - (fileSize fs delPath : ℤ) < 1024)
                else false)
            || fileSize fs delPath == 0 then
          if dirRelated s delPath p then some (delPath, none)
          else some (delPath, some (mkCorrEvent now delPath p isDir))
        else scanPendingDeletes cfg fs now s p isDir rest
      else scanPendingDeletes cfg fs now s p isDir rest

/-- Translation of `_try_correlate_events` (both the `is_delete` branch of
`on_deleted` and the create branch of `on_created`), applied after the
expired-event sweep. -/
def tryCorrelateEvents (cfg : Config) (fs : Fs) (now : ℤ) (p : FsPath)
    (isDir : Bool) (isDelete : Bool) (s : HState) : HState :=
  if processedValid cfg.timeout now s p then s
  else if isDelete then
    let dd : PendingData :=
      { time := now, path := p, isDirectory := isDir, isDelete := true,
        unmatched := false }
    { s with pendingDeletes := dictInsert p dd s.pendingDeletes }
  else
    let chainLocs :=
      if !isDir && !processedMatch cfg.timeout now s p then
        recentLocations cfg.timeout now s p
      else []
    match chainLocs with
    | q :: _ =>
      { s with moveEvents := s.moveEvents ++ [mkChainEvent now q p] }
    | [] =>
      match scanPendingDeletes cfg fs now s p isDir s.pendingDeletes with
      | some (delPath, some e) =>
        { s with pendingDeletes := dictDelete delPath s.pendingDeletes,
                 moveEvents := s.moveEvents ++ [e] }
      | some (delPath, none) =>
        { s with pendingDeletes := dictDelete delPath s.pendingDeletes }
      | none =>
        let cd : PendingData :=
          { time := now, path := p, isDirectory := isDir, isDelete := false,
            unmatched := false }
        { s with pendingCreates := dictInsert p cd s.pendingCreates }

/-- Translation of `on_deleted`: filter, sweep expired events, correlate. -/
def onDeleted (cfg : Config) (fs : Fs) (now : ℤ) (p : FsPath) (isDir : Bool)
    (s : HState) : HState :=
  if shouldIgnorePath cfg.ignoreMatchers p then s
  else if !isDir && !shouldTrackFile cfg.extensions p then s
  else
    tryCorrelateEvents cfg fs now p isDir true
      (cleanExpiredEvents cfg.timeout now s)

/-- Translation of `on_created`: filter, sweep expired events, correlate. -/
def onCreated (cfg : Config) (fs : Fs) (now : ℤ) (p : FsPath) (isDir : Bool)
    (s : HState) : HState :=
  if shouldIgnorePath cfg.ignoreMatchers p then s
  else if !isDir && !shouldTrackFile cfg.extensions p then s
  else
    tryCorrelateEvents cfg fs now p isDir false
      (cleanExpiredEvents cfg.timeout now s)

/-- State after recording a directory move: insert the mapping and evict
the oldest half of the table past 10 entries. -/
def dirMoveRecorded (src dest : FsPath) (s : HState) : HState :=
  let rdm := dictInsert src dest s.recentDirectoryMoves
  let rdm2 := if rdm.length > 10 then rdm.drop (rdm.length / 2) else rdm
  { s with recentDirectoryMoves := rdm2 }

/-- One step of the directory-move expansion loop: relative-path resolution
(always a prefix for glob results; a failure is a `continue`), log the
per-file event, mark old and new paths processed. -/
def expandStep (now : ℤ) (src dest : FsPath) (st : HState) (f : FsPath) :
    HState :=
  if dest.isPrefixOf f then
    { st with
      moveEvents := st.moveEvents ++ [mkExpansionEvent now src dest f],
      directoryProcessedFiles :=
        dictInsert f now
          (dictInsert (src ++ f.drop dest.length) now
            st.directoryProcessedFiles) }
  else st

/-- Translation of `on_moved`: ignore filtering; for a directory move,
record the mapping (evicting the oldest half past 10 entries) and expand to
per-file events; for a file move, extension filtering, suppression of moves
already explained by a recorded directory move, then the direct event. -/
def onMoved (cfg : Config) (fs : Fs) (now : ℤ) (src dest : FsPath)
    (isDir : Bool) (s : HState) : HState :=
  if shouldIgnorePath cfg.ignoreMatchers src
      || shouldIgnorePath cfg.ignoreMatchers dest then s
  else if isDir then
    (findFilesByExtension fs dest cfg.extensions).foldl
      (expandStep now src dest) (dirMoveRecorded src dest s)
  else if !shouldTrackFile cfg.extensions src
      && !shouldTrackFile cfg.extensions dest then s
  else if s.recentDirectoryMoves.any (fun od =>
      od.1.isPrefixOf src && od.2.isPrefixOf dest
        && decide (src.drop od.1.length = dest.drop od.2.length)) then s
  else
    { s with moveEvents := s.moveEvents ++ [mkDirectEvent now src dest] }

/-- A raw filesystem notification. -/
inductive RawEvent
  | moved (src dest : FsPath) (isDir : Bool)
  | deleted (p : FsPath) (isDir : Bool)
  | created (p : FsPath) (isDir : Bool)

/-- A notification together with the instant it is handled and the
filesystem contents the handler observes while handling it. -/
structure Notif where
  ev : RawEvent
  now : ℤ
  fs : Fs

/-- Dispatch one notification. -/
def stepNotif (cfg : Config) (s : HState) (n : Notif) : HState :=
  match n.ev with
  | .moved src dest d => onMoved cfg n.fs n.now src dest d s
  | .deleted p d => onDeleted cfg n.fs n.now p d s
  | .created p d => onCreated cfg n.fs n.now p d s

/-- Run a sequence of notifications against a fresh handler. -/
def runTrace (cfg : Config) (ns : List Notif) : HState :=
  ns.foldl (stepNotif cfg) initialState

/-- Translation of `flush_pending_events`: return all pending creates then
all pending deletes, each marked `unmatched`, and clear both tables; none of
the flushed records carries `old_path`/`new_path`, so none is appended to
`move_events`. -/
def flushPendingEvents (s : HState) : List PendingData × HState :=
  ((s.pendingCreates.map (fun kv => { kv.2 with unmatched := true }))
    ++ (s.pendingDeletes.map (fun kv => { kv.2 with unmatched := true })),
   { s with pendingCreates := [], pendingDeletes := [] })

/-! ### FileIndex (`core/file_index.py`) -/

/-- Translation of `FileInfo` (the dataclass fields the index uses). -/
structure FileInfoRec where
  path : FsPath
  size : ℕ
  mtime : ℤ
  deriving DecidableEq, Repr

/-- Disk interface of the index: `stat` gives size and mtime of an existing
file; `Path(p).exists()` is `(stat p).isSome`. -/
structure Disk where
  stat : FsPath → Option (ℕ × ℤ)

/-- Mutable index state: the snapshot and the two recent-event tables
(path to info and record time), in dict iteration order. -/
structure IndexState where
  currentFiles : List (FsPath × FileInfoRec)
  recentDeletions : List (FsPath × (FileInfoRec × ℤ))
  recentCreations : List (FsPath × (FileInfoRec × ℤ))
  deriving DecidableEq, Repr

/-- First loop of `_find_matching_deletion`: the first recent deletion with
equal size, mtime within 2 seconds and equal filename. -/
def findRecentDeletionMatch (ni : FileInfoRec) :
    List (FsPath × (FileInfoRec × ℤ)) → Option (FsPath × FileInfoRec)
  | [] => none
  | (dp, di, _) :: rest =>
    if di.size = ni.size ∧ |di.mtime - ni.mtime| < 2 ∧
        pathName dp = pathName ni.path then
      some (dp, di)
    else findRecentDeletionMatch ni rest

/-- Second loop of `_find_matching_deletion`: the first snapshot entry other
than the new path whose backing file no longer exists, with equal filename,
equal size and mtime within 5 seconds. -/
def findMissingFileMatch (disk : Disk) (ni : FileInfoRec) :
    List (FsPath × FileInfoRec) → Option (FsPath × FileInfoRec)
  | [] => none
  | (tp, ti) :: rest =>
    if tp = ni.path then findMissingFileMatch disk ni rest
    else if (disk.stat tp).isNone ∧ pathName tp = pathName ni.path ∧
        ti.size = ni.size ∧ |ti.mtime - ni.mtime| < 5 then
      some (tp, ti)
    else findMissingFileMatch disk ni rest

/-- Translation of `_find_matching_deletion`: first the recent-deletions
search; otherwise the missing-file fallback, which also records the found
entry as a recent deletion and removes it from the snapshot. -/
def findMatchingDeletion (disk : Disk) (now : ℤ) (st : IndexState)
    (ni : FileInfoRec) : Option (FsPath × FileInfoRec) × IndexState :=
  match findRecentDeletionMatch ni st.recentDeletions with
  | some r => (some r, st)
  | none =>
    match findMissingFileMatch disk ni st.currentFiles with
    | some (tp, ti) =>
      (some (tp, ti),
       { st with
         recentDeletions := dictInsert tp (ti, now) st.recentDeletions,
         currentFiles := dictDelete tp st.currentFiles })
    | none => (none, st)

/-- Translation of `FileIndex.record_creation`: a failed stat aborts with
no state change; otherwise insert the new file into the snapshot and the
recent-creations table, search for a matching deletion and, on a match,
delete the old path from recent-deletions and report the move. -/
def recordCreation (disk : Disk) (now : ℤ) (st : IndexState) (p : FsPath) :
    Option (FsPath × FsPath) × IndexState :=
  match disk.stat p with
  | none => (none, st)
  | some (sz, mt) =>
    let ni : FileInfoRec := { path := p, size := sz, mtime := mt }
    let st1 :=
      { st with
        currentFiles := dictInsert p ni st.currentFiles,
        recentCreations := dictInsert p (ni, now) st.recentCreations }
    match findMatchingDeletion disk now st1 ni with
    | (some (oldP, _), st2) =>
      (some (oldP, p),
       { st2 with recentDeletions := dictDelete oldP st2.recentDeletions })
    | (none, st2) => (none, st2)

/-- Translation of `FileIndex.record_deletion`: move a known snapshot entry
into recent-deletions, no-op for unknown files. -/
def recordDeletion (now : ℤ) (st : IndexState) (p : FsPath) : IndexState :=
  match dictFind p st.currentFiles with
  | some fi =>
    { st with
      recentDeletions := dictInsert p (fi, now) st.recentDeletions,
      currentFiles := dictDelete p st.currentFiles }
  | none => st

/-! ### Regex patterns and the ignore filters (`path_utils.py`,
legacy `watcher.py`, `blender/backlinks.py`) -/

/-- An ignore pattern as configured: `some m` is a well-formed regular
expression abstracted to its matching function, `none` a malformed pattern
(`re.compile` and `re.search` raise `re.error` on it). -/
abbrev RePat : Type := Option (String → Bool)

/-- Python `re.search(pattern, s)` on a raw pattern string: raises on a
malformed pattern, else reports whether it matches. -/
def reSearch (pat : RePat) (s : String) : Except Unit Bool :=
  match pat with
  | some m => Except.ok (m s)
  | none => Except.error ()

/-- Translation of `path_utils.is_path_ignored`: try the raw patterns in
order; a malformed pattern raises out of the function when reached. -/
def isPathIgnoredE : List RePat → String → Except Unit Bool
  | [], _ => Except.ok false
  | pat :: rest, s =>
    match reSearch pat s with
    | Except.error e => Except.error e
    | Except.ok true => Except.ok true
    | Except.ok false => isPathIgnoredE rest s

/-- Translation of the legacy `MoveTrackingHandler.__init__` pattern list
comprehension `[re.compile(p) for p in ignore_patterns]`: the first
malformed pattern raises out of the constructor. -/
def compileAllPatterns : List RePat → Except Unit (List (String → Bool))
  | [] => Except.ok []
  | none :: _ => Except.error ()
  | some m :: rest => (compileAllPatterns rest).map (fun l => m :: l)

/-- Translation of the `BacklinkScanner.__init__` loop: compile each
pattern under `try`, log a warning and skip the malformed ones. The
resulting list is assigned to `self.ignore_patterns` and never read again
anywhere in the program — the scanner's actual filtering goes through
`_should_ignore_directory` below, on the raw configured patterns. -/
def compileSkipMalformed : List RePat → List (String → Bool)
  | [] => []
  | none :: rest => compileSkipMalformed rest
  | some m :: rest => m :: compileSkipMalformed rest

/-- Translation of `BacklinkScanner._should_ignore_directory`: it calls
`is_path_ignored(directory, self.config.ignore_dirs)` on the RAW pattern
strings, not on the compiled list built in `__init__`. -/
def shouldIgnoreDirectoryB (configIgnoreDirs : List RePat) (s : String) :
    Except Unit Bool :=
  isPathIgnoredE configIgnoreDirs s

/-- Snapshot-plus-recents state after the two insertions of
`record_creation`, before the deletion search. -/
def insertedState (now : ℤ) (st : IndexState) (ni : FileInfoRec) : IndexState :=
  { st with
    currentFiles := dictInsert ni.path ni st.currentFiles,
    recentCreations := dictInsert ni.path (ni, now) st.recentCreations }

/-- Handler state holding exactly one pending delete, as left behind by a
single delete notification on a fresh handler. -/
def pendingDeleteState (q : FsPath) (t : ℤ) : HState :=
  { initialState with
    pendingDeletes :=
      [(q, { time := t, path := q, isDirectory := false, isDelete := true,
             unmatched := false })] }

/-- Whether a notification is a directory-level move. -/
def isDirMoveNotif (n : Notif) : Bool :=
  match n.ev with
  | RawEvent.moved _ _ true => true
  | _ => false

/-- Whether a notification, if it is a directory-level move, relocates to a
genuinely different directory (`src ≠ dest`). -/
def dirMoveProper (n : Notif) : Bool :=
  match n.ev with
  | RawEvent.moved src dest true => !(src == dest)
  | _ => true

/-- Consistency of a move event's kind with its paths: a `renamed` kind
exactly when the two parents agree. -/
def renamedConsistent (e : MoveEventRec) : Prop :=
  e.etype.isRenamed = true ↔ pathParent e.oldPath = pathParent e.newPath

/-- Invariant for the ignore filter: no ignored path occurs in any emitted
move event, in any pending deletion key, or in any processed marker key. -/
def noIgnoredPaths (cfg : Config) (s : HState) : Prop :=
  (∀ e ∈ s.moveEvents,
    shouldIgnorePath cfg.ignoreMatchers e.oldPath = false ∧
    shouldIgnorePath cfg.ignoreMatchers e.newPath = false) ∧
  (∀ kv ∈ s.pendingDeletes,
    shouldIgnorePath cfg.ignoreMatchers kv.1 = false) ∧
  (∀ kv ∈ s.directoryProcessedFiles,
    shouldIgnorePath cfg.ignoreMatchers kv.1 = false)

/-! ### Concrete configurations and traces used by witnesses and
counterexamples -/

namespace Scen

/-- Configuration tracking `.blend` files, no ignore patterns, two-second
correlation window. -/
def cfgB : Config :=
  { extensions := [".blend"], ignoreMatchers := [], timeout := 2 }

/-- Empty filesystem view. -/
def fsNone : Fs := { stat := fun _ => none, files := [] }

def pA : FsPath := ["src", "a.blend"]

def pB : FsPath := ["dst", "a.blend"]

/-- Filesystem in which only `dst/a.blend` exists, with size 5. -/
def fsB : Fs := { stat := fun p => if p = pB then some 5 else none, files := [] }

def pP : FsPath := ["d", "a.blend"]

/-- Filesystem in which only `d/a.blend` exists, with size 7. -/
def fsP : Fs := { stat := fun p => if p = pP then some 7 else none, files := [] }

def d1 : FsPath := ["d1"]

def d2 : FsPath := ["d2"]

def fx1 : FsPath := ["d1", "x.blend"]

def fx2 : FsPath := ["d2", "x.blend"]

def fx3 : FsPath := ["d3", "x.blend"]

/-- Filesystem after the directory move `d1 -> d2`: it contains
`d2/x.blend`. -/
def fsD : Fs := { stat := fun _ => none, files := [fx2] }

/-- Filesystem after the chain move: `d3/x.blend` exists with size 9. -/
def fsD3 : Fs :=
  { stat := fun p => if p = fx3 then some 9 else none, files := [fx2, fx3] }

def fy : FsPath := ["d2", "y.blend"]

def pt : FsPath := ["d", "a.txt"]

def pb : FsPath := ["d", "a.blend"]

/-- Configuration with one ignore pattern matching the segment
`secret.blend`. -/
def cfgI : Config :=
  { extensions := [".blend"],
    ignoreMatchers := [fun p => p.any (fun seg => seg == "secret.blend")],
    timeout := 2 }

def fsec : FsPath := ["d2", "secret.blend"]

/-- Filesystem containing the ignored file inside the moved directory. -/
def fsI : Fs := { stat := fun _ => none, files := [fsec] }

def oldX : FsPath := ["a", "x.blend"]

def newX : FsPath := ["b", "x.blend"]

def oldXInfo : FileInfoRec := { path := oldX, size := 5, mtime := 9 }

/-- Disk on which only the new location exists. -/
def diskX : Disk := { stat := fun p => if p = newX then some (5, 10) else none }

/-- Index snapshot still holding the vanished old location. -/
def stX : IndexState :=
  { currentFiles := [(oldX, oldXInfo)], recentDeletions := [],
    recentCreations := [] }

/-- Index state with a matching recent deletion for the branch-1 witness. -/
def stX1 : IndexState :=
  { currentFiles := [], recentDeletions := [(oldX, (oldXInfo, 8))],
    recentCreations := [] }

def pQ : FsPath := ["a", "q.blend"]

def pR : FsPath := ["b", "r.blend"]

/-- Filesystem in which only `b/r.blend` exists (the deleted `a/q.blend`
can no longer be statted). -/
def fsR : Fs := { stat := fun p => if p = pR then some 3 else none, files := [] }

/-- Handler state holding one pending delete for `a/q.blend` recorded at
time 0. -/
def sQ : HState :=
  { moveEvents := [],
    pendingDeletes :=
      [(pQ, { time := 0, path := pQ, isDirectory := false, isDelete := true,
              unmatched := false })],
    pendingCreates := [], recentDirectoryMoves := [],
    directoryProcessedFiles := [] }

/-- A move event with the given new name and path, used to populate event
histories. -/
def mkOldEvent (t : ℤ) (nm : String) (np : FsPath) : MoveEventRec :=
  { time := t, etype := .fileMoved, oldPath := ["z"], newPath := np,
    oldName := nm, newName := nm, isDirectory := false, correlated := false,
    chainMove := false }

/-- Eleven-event history: the oldest event is the only one whose `new_name`
matches `x.blend`; it lies eleven emissions in the past. -/
def sEleven : HState :=
  { moveEvents :=
      mkOldEvent 0 "x.blend" ["w", "x.blend"] ::
        List.replicate 10 (mkOldEvent 0 "other.blend" ["w", "o.blend"]),
    pendingDeletes := [], pendingCreates := [], recentDirectoryMoves := [],
    directoryProcessedFiles := [] }

def pX4 : FsPath := ["v", "x.blend"]

/-- Filesystem in which only `v/x.blend` exists. -/
def fsX4 : Fs := { stat := fun p => if p = pX4 then some 4 else none, files := [] }

/-- A concrete well-formed matcher used in the pattern witnesses. -/
def matchesX (t : String) : Bool := t == "x"

end Scen

/-! ### Helper lemmas on the dict operations -/

theorem mem_dictInsert_elim {β : Type} {kv : FsPath × β} {k : FsPath} {v : β}
    {d : List (FsPath × β)} (h : kv ∈ dictInsert k v d) :
    kv ∈ d ∨ kv.1 = k := by
  unfold dictInsert at h
  split at h
  · rcases List.mem_map.mp h with ⟨kv0, hkv0, heq⟩
    by_cases hk : kv0.1 = k
    · simp only [hk, if_pos] at heq
      right
      rw [← heq]
    · simp only [hk, if_neg, not_false_iff] at heq
      left
      exact heq ▸ hkv0
  · rcases List.mem_append.mp h with h1 | h1
    · exact Or.inl h1
    · right
      rw [List.mem_singleton.mp h1]

theorem mem_dictInsert_of_ne {β : Type} {kv : FsPath × β} {k : FsPath} {v : β}
    {d : List (FsPath × β)} (hne : kv.1 ≠ k) :
    kv ∈ dictInsert k v d ↔ kv ∈ d := by
  unfold dictInsert
  split
  · constructor
    · intro h
      rcases List.mem_map.mp h with ⟨kv0, hkv0, heq⟩
      by_cases hk : kv0.1 = k
      · simp only [hk, if_pos] at heq
        rw [← heq] at hne
        exact absurd rfl hne
      · simp only [hk, if_neg, not_false_iff] at heq
        exact heq ▸ hkv0
    · intro h
      refine List.mem_map.mpr ⟨kv, h, ?_⟩
      have hk : ¬ kv.1 = k := hne
      simp [hk]
  · constructor
    · intro h
      rcases List.mem_append.mp h with h1 | h1
      · exact h1
      · rw [List.mem_singleton.mp h1] at hne
        exact absurd rfl hne
    · intro h
      exact List.mem_append.mpr (Or.inl h)

theorem mem_dictDelete_elim {β : Type} {kv : FsPath × β} {k : FsPath}
    {d : List (FsPath × β)} (h : kv ∈ dictDelete k d) : kv ∈ d :=
  List.mem_of_mem_filter h

theorem dictFind_dictDelete_self {β : Type} (k : FsPath)
    (d : List (FsPath × β)) : dictFind k (dictDelete k d) = none := by
  unfold dictFind dictDelete
  have hfind : List.find? (fun kv => kv.1 == k)
      (List.filter (fun kv => !(kv.1 == k)) d) = none := by
    rw [List.find?_eq_none]
    intro kv hkv
    have := (List.mem_filter.mp hkv).2
    simpa using this
  rw [hfind]
  rfl

/-! ### C8: malformed ignore patterns -/

/-- C8 counterexample: with the pattern list `[malformed, wellformed]`,
`is_path_ignored` raises (`Except.error`) instead of returning a result
computed from the remaining well-formed pattern, and the legacy handler's
pattern compilation raises at configuration time. -/
theorem malformed_pattern_fatal_counterexample :
    isPathIgnoredE [none, some (fun _ => true)] "x" = Except.error () ∧
    compileAllPatterns [none] = Except.error () :=
  ⟨rfl, rfl⟩

/-- C8 amended: no filtering operation tolerates a malformed ignore
pattern. With any run of well-formed, non-matching patterns before the
malformed one: `is_path_ignored` — the matching routine behind both the
core handler's `should_ignore_path` and the backlinks scanner's
`_should_ignore_directory`, both of which search the RAW configured
patterns — reaches the malformed pattern and raises at match time instead
of returning a result computed from the remaining well-formed patterns;
and the legacy handler's pattern compilation raises at configuration time.
(The skip-with-warning loop in `BacklinkScanner.__init__` exists, but its
compiled list is never read, so it shields no filtering operation.) -/
theorem malformed_pattern_fatal_everywhere (pre rest : List RePat)
    (s : String)
    (hpre : ∀ p ∈ pre, ∃ m, p = some m ∧ m s = false) :
    isPathIgnoredE (pre ++ none :: rest) s = Except.error () ∧
    shouldIgnoreDirectoryB (pre ++ none :: rest) s = Except.error () ∧
    compileAllPatterns (pre ++ none :: rest) = Except.error () := by
  induction pre with
  | nil => exact ⟨rfl, rfl, rfl⟩
  | cons p ps ih =>
    obtain ⟨m, hm, hms⟩ := hpre p (List.mem_cons_self _ _)
    subst hm
    obtain ⟨ih1, -, ih3⟩ := ih (fun q hq => hpre q (List.mem_cons_of_mem _ hq))
    have hre : reSearch (some m) s = Except.ok false := by
      rw [← hms]
      rfl
    have g1 : isPathIgnoredE ((some m :: ps) ++ none :: rest) s
        = Except.error () := by
      show (match reSearch (some m) s with
        | Except.error e => Except.error e
        | Except.ok true => Except.ok true
        | Except.ok false => isPathIgnoredE (ps ++ none :: rest) s)
        = Except.error ()
      rw [hre]
      exact ih1
    refine ⟨g1, g1, ?_⟩
    show (compileAllPatterns (ps ++ none :: rest)).map (fun l => m :: l)
      = Except.error ()
    rw [ih3]
    rfl

/-- C8 witness: the amended statement with one well-formed non-matching
pattern before the malformed one, at the input `"y"`. -/
theorem malformed_pattern_fatal_everywhere_witness :
    isPathIgnoredE ([some Scen.matchesX] ++ none :: []) "y"
        = Except.error () ∧
    shouldIgnoreDirectoryB ([some Scen.matchesX] ++ none :: []) "y"
        = Except.error () ∧
    compileAllPatterns ([some Scen.matchesX] ++ none :: [])
        = Except.error () :=
  malformed_pattern_fatal_everywhere [some Scen.matchesX] [] "y"
    (by
      intro p hp
      rw [List.mem_singleton] at hp
      exact ⟨Scen.matchesX, hp, by decide⟩)

/-! ### C7: `FileIndex.record_creation` -/

theorem findRecentDeletionMatch_isSome (ni : FileInfoRec)
    (l : List (FsPath × (FileInfoRec × ℤ))) :
    (findRecentDeletionMatch ni l).isSome = true ↔
      ∃ e ∈ l, e.2.1.size = ni.size ∧ |e.2.1.mtime - ni.mtime| < 2 ∧
        pathName e.1 = pathName ni.path := by
  induction l with
  | nil =>
    constructor
    · intro h
      exact absurd h (by intro h2; cases h2)
    · rintro ⟨e, he, -⟩
      exact absurd he (List.not_mem_nil e)
  | cons e rest ih =>
    obtain ⟨dp, di, t⟩ := e
    simp only [findRecentDeletionMatch]
    split
    · rename_i hcond
      simp only [Option.isSome_some, true_iff]
      exact ⟨(dp, di, t), List.mem_cons_self _ _, hcond⟩
    · rename_i hcond
      rw [ih]
      constructor
      · rintro ⟨e, he, hC⟩
        exact ⟨e, List.mem_cons_of_mem _ he, hC⟩
      · rintro ⟨e, he, hC⟩
        rcases List.mem_cons.mp he with h1 | h1
        · subst h1
          exact absurd hC hcond
        · exact ⟨e, h1, hC⟩

theorem findMissingFileMatch_isSome (disk : Disk) (ni : FileInfoRec)
    (l : List (FsPath × FileInfoRec)) :
    (findMissingFileMatch disk ni l).isSome = true ↔
      ∃ e ∈ l, e.1 ≠ ni.path ∧ (disk.stat e.1).isNone = true ∧
        pathName e.1 = pathName ni.path ∧ e.2.size = ni.size ∧
        |e.2.mtime - ni.mtime| < 5 := by
  induction l with
  | nil =>
    constructor
    · intro h
      exact absurd h (by intro h2; cases h2)
    · rintro ⟨e, he, -⟩
      exact absurd he (List.not_mem_nil e)
  | cons e rest ih =>
    obtain ⟨tp, ti⟩ := e
    simp only [findMissingFileMatch]
    split
    · rename_i hp
      rw [ih]
      constructor
      · rintro ⟨e, he, hC⟩
        exact ⟨e, List.mem_cons_of_mem _ he, hC⟩
      · rintro ⟨e, he, hC⟩
        rcases List.mem_cons.mp he with h1 | h1
        · subst h1
          exact absurd hp hC.1
        · exact ⟨e, h1, hC⟩
    · split
      · rename_i hp hcond
        simp only [Option.isSome_some, true_iff]
        refine ⟨(tp, ti), List.mem_cons_self _ _, hp, ?_⟩
        simpa using hcond
      · rename_i hp hcond
        rw [ih]
        constructor
        · rintro ⟨e, he, hC⟩
          exact ⟨e, List.mem_cons_of_mem _ he, hC⟩
        · rintro ⟨e, he, hC⟩
          rcases List.mem_cons.mp he with h1 | h1
          · subst h1
            refine absurd ?_ hcond
            simpa using hC.2
          · exact ⟨e, h1, hC⟩

theorem exists_mem_dictInsert_ne {β : Type} (k : FsPath) (v : β)
    (d : List (FsPath × β)) (C : FsPath × β → Prop) :
    (∃ e ∈ dictInsert k v d, e.1 ≠ k ∧ C e) ↔ (∃ e ∈ d, e.1 ≠ k ∧ C e) := by
  constructor
  · rintro ⟨e, he, hne, hC⟩
    exact ⟨e, (mem_dictInsert_of_ne hne).mp he, hne, hC⟩
  · rintro ⟨e, he, hne, hC⟩
    exact ⟨e, (mem_dictInsert_of_ne hne).mpr he, hne, hC⟩

theorem findMatchingDeletion_eq_b1 (disk : Disk) (now : ℤ) {st : IndexState}
    {ni : FileInfoRec} {r : FsPath × FileInfoRec}
    (h : findRecentDeletionMatch ni st.recentDeletions = some r) :
    findMatchingDeletion disk now st ni = (some r, st) := by
  unfold findMatchingDeletion
  rw [h]

theorem findMatchingDeletion_eq_b2 (disk : Disk) (now : ℤ) {st : IndexState}
    {ni : FileInfoRec} {tp : FsPath} {ti : FileInfoRec}
    (h1 : findRecentDeletionMatch ni st.recentDeletions = none)
    (h2 : findMissingFileMatch disk ni st.currentFiles = some (tp, ti)) :
    findMatchingDeletion disk now st ni =
      (some (tp, ti),
       { st with
         recentDeletions := dictInsert tp (ti, now) st.recentDeletions,
         currentFiles := dictDelete tp st.currentFiles }) := by
  unfold findMatchingDeletion
  rw [h1, h2]

theorem findMatchingDeletion_eq_none (disk : Disk) (now : ℤ) {st : IndexState}
    {ni : FileInfoRec}
    (h1 : findRecentDeletionMatch ni st.recentDeletions = none)
    (h2 : findMissingFileMatch disk ni st.currentFiles = none) :
    findMatchingDeletion disk now st ni = (none, st) := by
  unfold findMatchingDeletion
  rw [h1, h2]

theorem recordCreation_eq_of_match {disk : Disk} {now : ℤ} {st : IndexState}
    {p : FsPath} {sz : ℕ} {mt : ℤ} {res : Option (FsPath × FileInfoRec)}
    {st2 : IndexState} (hstat : disk.stat p = some (sz, mt))
    (hm : findMatchingDeletion disk now
        (insertedState now st { path := p, size := sz, mtime := mt })
        { path := p, size := sz, mtime := mt } = (res, st2)) :
    recordCreation disk now st p =
      match res with
      | some r =>
        (some (r.1, p),
         { st2 with recentDeletions := dictDelete r.1 st2.recentDeletions })
      | none => (none, st2) := by
  unfold recordCreation
  rw [hstat]
  show (match findMatchingDeletion disk now
      (insertedState now st { path := p, size := sz, mtime := mt })
      { path := p, size := sz, mtime := mt } with
    | (some (oldP, _), st2) =>
      (some (oldP, p),
       { st2 with recentDeletions := dictDelete oldP st2.recentDeletions })
    | (none, st2) => (none, st2)) = _
  simp only [hm]
  cases res with
  | none => rfl
  | some r => rfl

/-- C7 counterexample: on the missing-file fallback (branch 2), the matched
snapshot entry is removed from the snapshot and the move is returned, but
the entry does NOT remain in recent-deletions afterwards: `record_creation`
itself deletes the entry `_find_matching_deletion` had just added. -/
theorem record_creation_fallback_counterexample :
    (recordCreation Scen.diskX 10 Scen.stX Scen.newX).1
      = some (Scen.oldX, Scen.newX) ∧
    (recordCreation Scen.diskX 10 Scen.stX Scen.newX).2.recentDeletions = [] ∧
    (recordCreation Scen.diskX 10 Scen.stX Scen.newX).2.currentFiles
      = [(Scen.newX, { path := Scen.newX, size := 5, mtime := 10 })] :=
  ⟨by decide, by decide, by decide⟩

/-- C7 amended: with a successful stat, `record_creation` inserts the new
path into the snapshot and recent-creations and reports a move exactly when
either (1) some recent deletion has equal size, mtime within 2 seconds and
equal filename, or (2) some other snapshot entry no longer backed by a file
on disk has equal filename, equal size and mtime within 5 seconds; the
reported old path never remains in recent-deletions afterwards (on branch 1
it is removed, on branch 2 it is transiently added inside the search and
immediately removed again by the caller); with no match only the two
insertions happen. -/
theorem record_creation_match_spec (disk : Disk) (now : ℤ) (st : IndexState)
    (p : FsPath) (sz : ℕ) (mt : ℤ) (hstat : disk.stat p = some (sz, mt)) :
    ((recordCreation disk now st p).1.isSome = true ↔
      ((∃ e ∈ st.recentDeletions, e.2.1.size = sz ∧ |e.2.1.mtime - mt| < 2 ∧
          pathName e.1 = pathName p) ∨
       (∃ e ∈ st.currentFiles, e.1 ≠ p ∧ (disk.stat e.1).isNone = true ∧
          pathName e.1 = pathName p ∧ e.2.size = sz ∧ |e.2.mtime - mt| < 5))) ∧
    (∀ r, (recordCreation disk now st p).1 = some r → r.2 = p ∧
      dictFind r.1 (recordCreation disk now st p).2.recentDeletions = none) ∧
    ((recordCreation disk now st p).1 = none →
      (recordCreation disk now st p).2 =
        insertedState now st { path := p, size := sz, mtime := mt }) := by
  rcases hb1 : findRecentDeletionMatch { path := p, size := sz, mtime := mt }
      (insertedState now st { path := p, size := sz, mtime := mt }).recentDeletions
      with _ | r1
  case some =>
    have hm := findMatchingDeletion_eq_b1 disk now hb1
    have heq := recordCreation_eq_of_match hstat hm
    rw [heq]
    refine ⟨?_, ?_, ?_⟩
    · simp only [Option.isSome_some, true_iff]
      left
      have h1 := (findRecentDeletionMatch_isSome
          { path := p, size := sz, mtime := mt }
          (insertedState now st { path := p, size := sz, mtime := mt }).recentDeletions).mp
        (by rw [hb1]; rfl)
      exact h1
    · intro r hr
      refine ⟨?_, ?_⟩
      · rw [← Option.some_inj.mp hr]
      · rw [← Option.some_inj.mp hr]
        exact dictFind_dictDelete_self _ _
    · intro hr
      cases hr
  case none =>
    rcases hb2 : findMissingFileMatch disk { path := p, size := sz, mtime := mt }
        (insertedState now st { path := p, size := sz, mtime := mt }).currentFiles
        with _ | r2
    case some =>
      obtain ⟨tp, ti⟩ := r2
      have hm := findMatchingDeletion_eq_b2 disk now hb1 hb2
      have heq := recordCreation_eq_of_match hstat hm
      rw [heq]
      refine ⟨?_, ?_, ?_⟩
      · simp only [Option.isSome_some, true_iff]
        right
        have h2 := (findMissingFileMatch_isSome disk
            { path := p, size := sz, mtime := mt }
            (insertedState now st { path := p, size := sz, mtime := mt }).currentFiles).mp
          (by rw [hb2]; rfl)
        exact (exists_mem_dictInsert_ne p _ st.currentFiles _).mp h2
      · intro r hr
        refine ⟨?_, ?_⟩
        · rw [← Option.some_inj.mp hr]
        · rw [← Option.some_inj.mp hr]
          exact dictFind_dictDelete_self _ _
      · intro hr
        cases hr
    case none =>
      have hm := findMatchingDeletion_eq_none disk now hb1 hb2
      have heq := recordCreation_eq_of_match hstat hm
      rw [heq]
      refine ⟨?_, ?_, ?_⟩
      · constructor
        · intro h
          cases h
        · rintro (h | h)
          · have := (findRecentDeletionMatch_isSome
                { path := p, size := sz, mtime := mt }
                (insertedState now st
                  { path := p, size := sz, mtime := mt }).recentDeletions).mpr h
            rw [hb1] at this
            cases this
          · have := (findMissingFileMatch_isSome disk
                { path := p, size := sz, mtime := mt }
                (insertedState now st
                  { path := p, size := sz, mtime := mt }).currentFiles).mpr
              ((exists_mem_dictInsert_ne p _ st.currentFiles _).mpr h)
            rw [hb2] at this
            cases this
      · intro r hr
        cases hr
      · intro _
        rfl

/-- C7 witness: the amended statement at the branch-1 state (one matching
recent deletion for `a/x.blend`), the disk on which only `b/x.blend`
exists, and the created path `b/x.blend`. -/
theorem record_creation_match_spec_witness :
    (((recordCreation Scen.diskX 10 Scen.stX1 Scen.newX).1.isSome = true ↔
      ((∃ e ∈ Scen.stX1.recentDeletions, e.2.1.size = 5 ∧
          |e.2.1.mtime - (10 : ℤ)| < 2 ∧ pathName e.1 = pathName Scen.newX) ∨
       (∃ e ∈ Scen.stX1.currentFiles, e.1 ≠ Scen.newX ∧
          (Scen.diskX.stat e.1).isNone = true ∧
          pathName e.1 = pathName Scen.newX ∧ e.2.size = 5 ∧
          |e.2.mtime - (10 : ℤ)| < 5))) ∧
    (∀ r, (recordCreation Scen.diskX 10 Scen.stX1 Scen.newX).1 = some r →
      r.2 = Scen.newX ∧
      dictFind r.1
        (recordCreation Scen.diskX 10 Scen.stX1 Scen.newX).2.recentDeletions
        = none) ∧
    ((recordCreation Scen.diskX 10 Scen.stX1 Scen.newX).1 = none →
      (recordCreation Scen.diskX 10 Scen.stX1 Scen.newX).2 =
        insertedState 10 Scen.stX1
          { path := Scen.newX, size := 5, mtime := 10 })) :=
  record_creation_match_spec Scen.diskX 10 Scen.stX1 Scen.newX 5 10 (by decide)

/-! ### Helper lemmas on the correlator -/

theorem cleanExpired_moveEvents (timeout now : ℤ) (s : HState) :
    (cleanExpiredEvents timeout now s).moveEvents = s.moveEvents := rfl

theorem cleanExpired_processed_sub {timeout now : ℤ} {s : HState}
    {kv : FsPath × ℤ}
    (h : kv ∈ (cleanExpiredEvents timeout now s).directoryProcessedFiles) :
    kv ∈ s.directoryProcessedFiles :=
  List.mem_of_mem_filter h

theorem cleanExpired_pendingDeletes_sub {timeout now : ℤ} {s : HState}
    {kv : FsPath × PendingData}
    (h : kv ∈ (cleanExpiredEvents timeout now s).pendingDeletes) :
    kv ∈ s.pendingDeletes :=
  List.mem_of_mem_filter h

theorem scanPendingDeletes_some {cfg : Config} {fs : Fs} {now : ℤ}
    {s : HState} {p : FsPath} {isDir : Bool} {l : List (FsPath × PendingData)}
    {dp : FsPath} {oe : Option MoveEventRec}
    (h : scanPendingDeletes cfg fs now s p isDir l = some (dp, oe)) :
    (∃ dd, (dp, dd) ∈ l) ∧
      ∀ e, oe = some e → e = mkCorrEvent now dp p isDir := by
  induction l with
  | nil => cases h
  | cons hd rest ih =>
    obtain ⟨delPath, dd⟩ := hd
    rw [scanPendingDeletes] at h
    by_cases h1 : processedValid cfg.timeout now s delPath = true
    · rw [if_pos h1] at h
      rcases ih h with ⟨⟨dd2, hdd2⟩, he⟩
      exact ⟨⟨dd2, List.mem_cons_of_mem _ hdd2⟩, he⟩
    · rw [if_neg h1] at h
      by_cases h2 : pathExt delPath = pathExt p ∧ |now - dd.time| ≤ cfg.timeout
      · rw [if_pos h2] at h
        by_cases h3 : (pathName delPath == pathName p
            || (if fileSize fs delPath > 0 then
                  decide ((fileSize fs delPath : ℤ) - (fileSize fs p : ℤ) < 1024
                    ∧ (fileSize fs p : ℤ) - (fileSize fs delPath : ℤ) < 1024)
                else false)
            || fileSize fs delPath == 0) = true
        · rw [if_pos h3] at h
          by_cases h4 : dirRelated s delPath p = true
          · rw [if_pos h4] at h
            injection h with h0
            injection h0 with hk ho
            subst hk
            subst ho
            refine ⟨⟨dd, List.mem_cons_self _ _⟩, ?_⟩
            intro e he
            cases he
          · rw [if_neg h4] at h
            injection h with h0
            injection h0 with hk ho
            subst hk
            subst ho
            refine ⟨⟨dd, List.mem_cons_self _ _⟩, ?_⟩
            intro e he
            exact (Option.some_inj.mp he).symm
        · rw [if_neg h3] at h
          rcases ih h with ⟨⟨dd2, hdd2⟩, he⟩
          exact ⟨⟨dd2, List.mem_cons_of_mem _ hdd2⟩, he⟩
      · rw [if_neg h2] at h
        rcases ih h with ⟨⟨dd2, hdd2⟩, he⟩
        exact ⟨⟨dd2, List.mem_cons_of_mem _ hdd2⟩, he⟩

theorem onDeleted_initial (cfg : Config) (fs : Fs) (t0 : ℤ) (q : FsPath)
    (hIgn : shouldIgnorePath cfg.ignoreMatchers q = false)
    (hTrk : shouldTrackFile cfg.extensions q = true) :
    onDeleted cfg fs t0 q false initialState = pendingDeleteState q t0 := by
  simp only [onDeleted, hIgn, hTrk, Bool.not_true, Bool.not_false,
    Bool.true_and, Bool.false_eq_true, if_false]
  rfl

theorem onCreated_singleton_pending (cfg : Config) (fs : Fs) (now tq : ℤ)
    (p q : FsPath)
    (hIgn : shouldIgnorePath cfg.ignoreMatchers p = false)
    (hTrk : shouldTrackFile cfg.extensions p = true)
    (hExt : pathExt q = pathExt p)
    (hT : |now - tq| ≤ cfg.timeout)
    (hConf : pathName q = pathName p ∨ fileSize fs q = 0) :
    onCreated cfg fs now p false (pendingDeleteState q tq) =
      { moveEvents := [mkCorrEvent now q p false], pendingDeletes := [],
        pendingCreates := [], recentDirectoryMoves := [],
        directoryProcessedFiles := [] } := by
  have hkeep : (!(decide (now - tq > cfg.timeout))) = true := by
    have h1 : now - tq ≤ cfg.timeout := le_trans (le_abs_self _) hT
    simp only [Bool.not_eq_true', decide_eq_false_iff_not]
    exact not_lt.mpr h1
  have hclean : cleanExpiredEvents cfg.timeout now (pendingDeleteState q tq)
      = pendingDeleteState q tq := by
    unfold cleanExpiredEvents pendingDeleteState initialState
    simp [hkeep]
  have hpvq : processedValid cfg.timeout now (pendingDeleteState q tq) q
      = false := rfl
  have hor : (pathName q == pathName p
      || (if fileSize fs q > 0 then
            decide ((fileSize fs q : ℤ) - (fileSize fs p : ℤ) < 1024
              ∧ (fileSize fs p : ℤ) - (fileSize fs q : ℤ) < 1024)
          else false)
      || fileSize fs q == 0) = true := by
    rcases hConf with h | h
    · simp [h]
    · simp [h]
  have hdr : dirRelated (pendingDeleteState q tq) q p = false := rfl
  have hscan : scanPendingDeletes cfg fs now (pendingDeleteState q tq) p false
      (pendingDeleteState q tq).pendingDeletes
      = some (q, some (mkCorrEvent now q p false)) := by
    show scanPendingDeletes cfg fs now (pendingDeleteState q tq) p false
      [(q, { time := tq, path := q, isDirectory := false, isDelete := true,
             unmatched := false })] = _
    rw [scanPendingDeletes]
    rw [if_neg (by simp [hpvq])]
    rw [if_pos ⟨hExt, hT⟩]
    rw [if_pos hor]
    rw [if_neg (by simp [hdr])]
  have htc : tryCorrelateEvents cfg fs now p false false
      (pendingDeleteState q tq)
      = { moveEvents := [mkCorrEvent now q p false], pendingDeletes := [],
          pendingCreates := [], recentDirectoryMoves := [],
          directoryProcessedFiles := [] } := by
    rw [tryCorrelateEvents]
    rw [if_neg (by intro h; cases h)]
    rw [if_neg (by intro h; cases h)]
    have hcl : (if !false && !processedMatch cfg.timeout now
          (pendingDeleteState q tq) p then
        recentLocations cfg.timeout now (pendingDeleteState q tq) p
      else []) = ([] : List FsPath) := rfl
    rw [hcl]
    rw [hscan]
    show ({ pendingDeleteState q tq with
      pendingDeletes := dictDelete q (pendingDeleteState q tq).pendingDeletes,
      moveEvents := (pendingDeleteState q tq).moveEvents
        ++ [mkCorrEvent now q p false] } : HState) = _
    have hdel : dictDelete q (pendingDeleteState q tq).pendingDeletes = [] := by
      simp [dictDelete, pendingDeleteState, initialState]
    rw [hdel]
    rfl
  rw [onCreated]
  rw [if_neg (by rw [hIgn]; intro h; cases h)]
  rw [if_neg (by rw [hTrk]; intro h; cases h)]
  rw [hclean, htc]

/-! ### C9: stat failures degrade to size 0 and permissive matching -/

/-- C9: when stat fails or the path is gone the engine's file info defaults
the size to 0; a pending deletion whose size reads 0 then matches a create
on extension and timing alone even when the names and sizes differ (the
most permissive branch), producing a correlated move event; and the index's
`record_creation` returns no move and leaves the state unchanged when stat
fails, rather than propagating the error (all engine operations are total
functions in this model, mirroring the `try/except` walls in the code). -/
theorem stat_failure_defaults_permissive (cfg : Config) (fs : Fs)
    (now tq : ℤ) (p q : FsPath) (disk : Disk) (ist : IndexState) (r : FsPath)
    (hq : fs.stat q = none)
    (hIgn : shouldIgnorePath cfg.ignoreMatchers p = false)
    (hTrk : shouldTrackFile cfg.extensions p = true)
    (hExt : pathExt q = pathExt p)
    (hNm : pathName q ≠ pathName p)
    (hT : |now - tq| ≤ cfg.timeout)
    (hr : disk.stat r = none) :
    fileSize fs q = 0 ∧
    onCreated cfg fs now p false (pendingDeleteState q tq) =
      { moveEvents := [mkCorrEvent now q p false], pendingDeletes := [],
        pendingCreates := [], recentDirectoryMoves := [],
        directoryProcessedFiles := [] } ∧
    recordCreation disk now ist r = (none, ist) := by
  have hsz : fileSize fs q = 0 := by
    simp [fileSize, hq]
  refine ⟨hsz, ?_, ?_⟩
  · exact onCreated_singleton_pending cfg fs now tq p q hIgn hTrk hExt hT
      (Or.inr hsz)
  · unfold recordCreation
    rw [hr]

/-- C9 witness: the permissive correlation at the concrete state with a
pending delete of `a/q.blend` (vanished, size reads 0) and a create of
`b/r.blend` (different name, size 3) one second later. -/
theorem stat_failure_defaults_permissive_witness :
    fileSize Scen.fsR Scen.pQ = 0 ∧
    onCreated Scen.cfgB Scen.fsR 1 Scen.pR false (pendingDeleteState Scen.pQ 0) =
      { moveEvents := [mkCorrEvent 1 Scen.pQ Scen.pR false], pendingDeletes := [],
        pendingCreates := [], recentDirectoryMoves := [],
        directoryProcessedFiles := [] } ∧
    recordCreation { stat := fun _ => none } 1 Scen.stX1 Scen.pR
      = (none, Scen.stX1) :=
  stat_failure_defaults_permissive Scen.cfgB Scen.fsR 1 0 Scen.pR Scen.pQ
    { stat := fun _ => none } Scen.stX1 Scen.pR (by decide) (by decide)
    (by decide) (by decide) (by decide) (by decide) (by decide)

/-! ### C1: delete followed by matching create correlates to one move -/

/-- C1: starting from a fresh handler, a delete of file `A` followed within
the correlation window by a create of file `B` with the same filename and a
different parent directory, neither path filtered (and no marker present on
a fresh handler), produces exactly one move event: kind `file_moved`,
`old_path = A`, `new_path = B`, flagged `correlated`, and the pending
deletion for `A` is removed, leaving both pending tables empty. -/
theorem delete_create_correlation_single_move (cfg : Config) (fs0 fs1 : Fs)
    (t0 t1 : ℤ) (A B : FsPath)
    (hIgnA : shouldIgnorePath cfg.ignoreMatchers A = false)
    (hTrkA : shouldTrackFile cfg.extensions A = true)
    (hIgnB : shouldIgnorePath cfg.ignoreMatchers B = false)
    (hTrkB : shouldTrackFile cfg.extensions B = true)
    (hName : pathName A = pathName B)
    (hPar : pathParent A ≠ pathParent B)
    (hT : |t1 - t0| ≤ cfg.timeout) :
    runTrace cfg
      [{ ev := RawEvent.deleted A false, now := t0, fs := fs0 },
       { ev := RawEvent.created B false, now := t1, fs := fs1 }] =
      { moveEvents :=
          [{ time := t1, etype := EventType.fileMoved, oldPath := A,
             newPath := B, oldName := pathName A, newName := pathName B,
             isDirectory := false, correlated := true, chainMove := false }],
        pendingDeletes := [], pendingCreates := [],
        recentDirectoryMoves := [], directoryProcessedFiles := [] } := by
  have hExt : pathExt A = pathExt B := by
    unfold pathExt
    rw [hName]
  have step1 : runTrace cfg
      [{ ev := RawEvent.deleted A false, now := t0, fs := fs0 },
       { ev := RawEvent.created B false, now := t1, fs := fs1 }]
      = onCreated cfg fs1 t1 B false (pendingDeleteState A t0) := by
    unfold runTrace
    simp only [List.foldl, stepNotif]
    rw [onDeleted_initial cfg fs0 t0 A hIgnA hTrkA]
  rw [step1]
  rw [onCreated_singleton_pending cfg fs1 t1 t0 B A hIgnB hTrkB hExt hT
    (Or.inl hName)]
  have hev : mkCorrEvent t1 A B false =
      { time := t1, etype := EventType.fileMoved, oldPath := A,
        newPath := B, oldName := pathName A, newName := pathName B,
        isDirectory := false, correlated := true, chainMove := false } := by
    unfold mkCorrEvent
    rw [if_neg hPar]
    rfl
  rw [hev]

/-- C1 witness: the scenario of the specification, from a fresh handler:
`delete(src/a.blend)` at `t = 0`, `create(dst/a.blend)` at `t = 1` inside
the two-second window. -/
theorem delete_create_correlation_single_move_witness :
    runTrace Scen.cfgB
      [{ ev := RawEvent.deleted Scen.pA false, now := 0, fs := Scen.fsNone },
       { ev := RawEvent.created Scen.pB false, now := 1, fs := Scen.fsB }] =
      { moveEvents :=
          [{ time := 1, etype := EventType.fileMoved, oldPath := Scen.pA,
             newPath := Scen.pB, oldName := pathName Scen.pA,
             newName := pathName Scen.pB, isDirectory := false,
             correlated := true, chainMove := false }],
        pendingDeletes := [], pendingCreates := [],
        recentDirectoryMoves := [], directoryProcessedFiles := [] } :=
  delete_create_correlation_single_move Scen.cfgB Scen.fsNone Scen.fsB 0 1
    Scen.pA Scen.pB (by decide) (by decide) (by decide) (by decide)
    (by decide) (by decide) (by decide)

/-! ### C4: the ProcessedFileMarker check -/

/-- C4 counterexample: the direct-move entry point does not consult the
marker table. After the directory move `d1 -> d2` marks `d1/x.blend`, a
direct file-move notification for `d1/x.blend` (to a destination that is
not its recorded counterpart) is processed again and emits a second event,
even though its path carries a marker well inside the validity window. -/
theorem direct_move_ignores_marker_counterexample :
    processedValid Scen.cfgB.timeout 1
      (runTrace Scen.cfgB
        [{ ev := RawEvent.moved Scen.d1 Scen.d2 true, now := 0,
           fs := Scen.fsD }]) Scen.fx1 = true ∧
    (runTrace Scen.cfgB
      [{ ev := RawEvent.moved Scen.d1 Scen.d2 true, now := 0, fs := Scen.fsD },
       { ev := RawEvent.moved Scen.fx1 Scen.fy false, now := 1,
         fs := Scen.fsD3 }]).moveEvents.length = 2 :=
  ⟨by decide, by decide⟩

/-- C4 amended: only the delete and create entry points consult the
ProcessedFileMarker table before any further processing: a delete or create
notification whose path carries a marker recorded less than
`2 x correlation_window` ago is dropped after the expiry sweep, adding no
event and no pending entry. The direct-move entry point never consults the
marker table (it deduplicates only through the recent directory-move
table). -/
theorem marker_blocks_delete_and_create (cfg : Config) (fs : Fs) (now : ℤ)
    (p : FsPath) (isDir : Bool) (s : HState)
    (hIgn : shouldIgnorePath cfg.ignoreMatchers p = false)
    (hTrk : isDir = true ∨ shouldTrackFile cfg.extensions p = true)
    (hMark : processedValid cfg.timeout now
      (cleanExpiredEvents cfg.timeout now s) p = true) :
    onDeleted cfg fs now p isDir s = cleanExpiredEvents cfg.timeout now s ∧
    onCreated cfg fs now p isDir s = cleanExpiredEvents cfg.timeout now s := by
  have hguard : (!isDir && !shouldTrackFile cfg.extensions p) = false := by
    rcases hTrk with h | h
    · rw [h]
      rfl
    · rw [h]
      simp
  constructor
  · rw [onDeleted]
    rw [if_neg (by rw [hIgn]; intro h; cases h)]
    rw [if_neg (by rw [hguard]; intro h; cases h)]
    rw [tryCorrelateEvents]
    rw [if_pos hMark]
  · rw [onCreated]
    rw [if_neg (by rw [hIgn]; intro h; cases h)]
    rw [if_neg (by rw [hguard]; intro h; cases h)]
    rw [tryCorrelateEvents]
    rw [if_pos hMark]

/-- C4 witness: the amended statement at a concrete state whose marker
table holds `d1/x.blend` recorded at time 0, with a delete/create of that
path at time 1 (window 2, so the marker is valid). -/
theorem marker_blocks_delete_and_create_witness :
    onDeleted Scen.cfgB Scen.fsD3 1 Scen.fx1 false
      (runTrace Scen.cfgB
        [{ ev := RawEvent.moved Scen.d1 Scen.d2 true, now := 0,
           fs := Scen.fsD }])
      = cleanExpiredEvents Scen.cfgB.timeout 1
        (runTrace Scen.cfgB
          [{ ev := RawEvent.moved Scen.d1 Scen.d2 true, now := 0,
             fs := Scen.fsD }]) ∧
    onCreated Scen.cfgB Scen.fsD3 1 Scen.fx1 false
      (runTrace Scen.cfgB
        [{ ev := RawEvent.moved Scen.d1 Scen.d2 true, now := 0,
           fs := Scen.fsD }])
      = cleanExpiredEvents Scen.cfgB.timeout 1
        (runTrace Scen.cfgB
          [{ ev := RawEvent.moved Scen.d1 Scen.d2 true, now := 0,
             fs := Scen.fsD }]) :=
  marker_blocks_delete_and_create Scen.cfgB Scen.fsD3 1 Scen.fx1 false _
    (by decide) (Or.inr (by decide)) (by decide)

/-! ### C2: chain-move detection on a create -/

/-- C2 counterexample: after the directory move `d1 -> d2` (whose expansion
marks both `d1/x.blend` and `d2/x.blend` and emits
`MoveEvent(d1/x.blend, d2/x.blend)`), a create of `d3/x.blend` one second
later emits a chain event whose `old_path` is `d1/x.blend` — the FIRST
matching marker in insertion order, which is the recorded move's OLD path,
not its `new_path` `d2/x.blend` as the claim states — and neither path of
the chain event is marked processed afterwards. -/
theorem chain_move_claim_counterexample :
    (runTrace Scen.cfgB
      [{ ev := RawEvent.moved Scen.d1 Scen.d2 true, now := 0, fs := Scen.fsD },
       { ev := RawEvent.created Scen.fx3 false, now := 1,
         fs := Scen.fsD3 }]).moveEvents =
      [{ time := 0, etype := EventType.fileMoved, oldPath := Scen.fx1,
         newPath := Scen.fx2, oldName := "x.blend", newName := "x.blend",
         isDirectory := false, correlated := false, chainMove := false },
       { time := 1, etype := EventType.fileMoved, oldPath := Scen.fx1,
         newPath := Scen.fx3, oldName := "x.blend", newName := "x.blend",
         isDirectory := false, correlated := true, chainMove := true }] ∧
    Scen.fx1 ≠ Scen.fx2 ∧
    dictFind Scen.fx3
      ((runTrace Scen.cfgB
        [{ ev := RawEvent.moved Scen.d1 Scen.d2 true, now := 0, fs := Scen.fsD },
         { ev := RawEvent.created Scen.fx3 false, now := 1,
           fs := Scen.fsD3 }]).directoryProcessedFiles) = none :=
  ⟨by decide, by decide, by decide⟩

/-- C2 amended: on a create of a file whose path is not validly marked, when
the recent-location scan (valid markers with the same filename and a
different path, then the new paths of the last ten move events) is
non-empty, exactly one chain move event is emitted: its `old_path` is the
FIRST recent location in scan order (which may be the old path a directory
expansion marked, not necessarily a recorded `new_path`), it is classified
renamed or moved by parent equality, the pending-deletion scan is skipped,
and no path is marked processed (the tables beyond `move_events` are
exactly those left by the expiry sweep). -/
theorem chain_move_first_recent_location (cfg : Config) (fs : Fs) (now : ℤ)
    (p : FsPath) (s : HState) (q : FsPath) (rest : List FsPath)
    (hIgn : shouldIgnorePath cfg.ignoreMatchers p = false)
    (hTrk : shouldTrackFile cfg.extensions p = true)
    (hMark : processedValid cfg.timeout now
      (cleanExpiredEvents cfg.timeout now s) p = false)
    (hPm : processedMatch cfg.timeout now
      (cleanExpiredEvents cfg.timeout now s) p = false)
    (hLoc : recentLocations cfg.timeout now
      (cleanExpiredEvents cfg.timeout now s) p = q :: rest) :
    onCreated cfg fs now p false s =
      { cleanExpiredEvents cfg.timeout now s with
        moveEvents := (cleanExpiredEvents cfg.timeout now s).moveEvents
          ++ [mkChainEvent now q p] } := by
  rw [onCreated]
  rw [if_neg (by rw [hIgn]; intro h; cases h)]
  rw [if_neg (by rw [hTrk]; intro h; cases h)]
  rw [tryCorrelateEvents]
  rw [if_neg (by rw [hMark]; intro h; cases h)]
  have hcl : (if !false && !processedMatch cfg.timeout now
        (cleanExpiredEvents cfg.timeout now s) p then
      recentLocations cfg.timeout now (cleanExpiredEvents cfg.timeout now s) p
    else []) = q :: rest := by
    rw [hPm]
    exact hLoc
  rw [hcl]
  rfl

/-- C2 witness: the amended statement at the counterexample trace: the
first recent location for the create of `d3/x.blend` is the marker
`d1/x.blend`. -/
theorem chain_move_first_recent_location_witness :
    onCreated Scen.cfgB Scen.fsD3 1 Scen.fx3 false
      (runTrace Scen.cfgB
        [{ ev := RawEvent.moved Scen.d1 Scen.d2 true, now := 0,
           fs := Scen.fsD }])
      = { cleanExpiredEvents Scen.cfgB.timeout 1
            (runTrace Scen.cfgB
              [{ ev := RawEvent.moved Scen.d1 Scen.d2 true, now := 0,
                 fs := Scen.fsD }]) with
          moveEvents :=
            (cleanExpiredEvents Scen.cfgB.timeout 1
              (runTrace Scen.cfgB
                [{ ev := RawEvent.moved Scen.d1 Scen.d2 true, now := 0,
                   fs := Scen.fsD }])).moveEvents
              ++ [mkChainEvent 1 Scen.fx1 Scen.fx3] } :=
  chain_move_first_recent_location Scen.cfgB Scen.fsD3 1 Scen.fx3 _
    Scen.fx1 [Scen.fx2, Scen.fx2] (by decide) (by decide) (by decide)
    (by decide) (by decide)

/-! ### C6: flush reports pending entries as standalone events -/

/-- C6 counterexample: delete of `src/a.blend` at time 0, matching create
of `dst/a.blend` at time 5 (past the two-second window). The expiry sweep
run at create time has already dropped the pending delete, so `flush`
reports exactly ONE unmatched standalone event (the create), not the two
events the claim asserts. -/
theorem flush_after_expiry_counterexample :
    (flushPendingEvents (runTrace Scen.cfgB
      [{ ev := RawEvent.deleted Scen.pA false, now := 0, fs := Scen.fsNone },
       { ev := RawEvent.created Scen.pB false, now := 5, fs := Scen.fsB }])).1
      = [{ time := 5, path := Scen.pB, isDirectory := false, isDelete := false,
           unmatched := true }] := by decide

/-- C6 amended: `flush_pending_events` returns one record per remaining
pending entry (creates then deletes), each marked `unmatched` and each a
standalone single-path record, never a move: `move_events` is untouched and
both tables are empty afterwards. In the spec's scenario — delete(A) at
`t0`, create(B) with the same filename at `t1` with
`t1 - t0 > correlation_window` — the expiry sweep at create time has
already dropped the delete, so the flush reports exactly one unmatched
event, the create. -/
theorem flush_reports_pending_standalone (s : HState) (cfg : Config)
    (fs0 fs1 : Fs) (t0 t1 : ℤ) (A B : FsPath)
    (hIgnA : shouldIgnorePath cfg.ignoreMatchers A = false)
    (hTrkA : shouldTrackFile cfg.extensions A = true)
    (hIgnB : shouldIgnorePath cfg.ignoreMatchers B = false)
    (hTrkB : shouldTrackFile cfg.extensions B = true)
    (hLate : cfg.timeout < t1 - t0) :
    ((flushPendingEvents s).1.length
        = s.pendingCreates.length + s.pendingDeletes.length ∧
      (∀ d ∈ (flushPendingEvents s).1, d.unmatched = true) ∧
      (flushPendingEvents s).2.pendingDeletes = [] ∧
      (flushPendingEvents s).2.pendingCreates = [] ∧
      (flushPendingEvents s).2.moveEvents = s.moveEvents) ∧
    (flushPendingEvents (runTrace cfg
      [{ ev := RawEvent.deleted A false, now := t0, fs := fs0 },
       { ev := RawEvent.created B false, now := t1, fs := fs1 }])).1
      = [{ time := t1, path := B, isDirectory := false, isDelete := false,
           unmatched := true }] := by
  refine ⟨⟨?_, ?_, rfl, rfl, rfl⟩, ?_⟩
  · simp [flushPendingEvents]
  · intro d hd
    rcases List.mem_append.mp hd with h | h <;>
      · rcases List.mem_map.mp h with ⟨kv, _, hkv⟩
        rw [← hkv]
  · have hdrop : (!(decide (t1 - t0 > cfg.timeout))) = false := by
      simp only [Bool.not_eq_false', decide_eq_true_eq]
      exact hLate
    have step1 : runTrace cfg
        [{ ev := RawEvent.deleted A false, now := t0, fs := fs0 },
         { ev := RawEvent.created B false, now := t1, fs := fs1 }]
        = onCreated cfg fs1 t1 B false (pendingDeleteState A t0) := by
      unfold runTrace
      simp only [List.foldl, stepNotif]
      rw [onDeleted_initial cfg fs0 t0 A hIgnA hTrkA]
    rw [step1]
    have hclean : cleanExpiredEvents cfg.timeout t1 (pendingDeleteState A t0)
        = initialState := by
      unfold cleanExpiredEvents pendingDeleteState initialState
      simp [hdrop]
    rw [onCreated]
    rw [if_neg (by rw [hIgnB]; intro h; cases h)]
    rw [if_neg (by rw [hTrkB]; intro h; cases h)]
    rw [hclean]
    rfl

/-- C6 witness: the amended statement at the counterexample trace and an
arbitrary concrete state with one pending create and one pending delete. -/
theorem flush_reports_pending_standalone_witness :
    (((flushPendingEvents (pendingDeleteState Scen.pQ 0)).1.length
        = (pendingDeleteState Scen.pQ 0).pendingCreates.length
          + (pendingDeleteState Scen.pQ 0).pendingDeletes.length ∧
      (∀ d ∈ (flushPendingEvents (pendingDeleteState Scen.pQ 0)).1,
        d.unmatched = true) ∧
      (flushPendingEvents (pendingDeleteState Scen.pQ 0)).2.pendingDeletes = [] ∧
      (flushPendingEvents (pendingDeleteState Scen.pQ 0)).2.pendingCreates = [] ∧
      (flushPendingEvents (pendingDeleteState Scen.pQ 0)).2.moveEvents
        = (pendingDeleteState Scen.pQ 0).moveEvents) ∧
    (flushPendingEvents (runTrace Scen.cfgB
      [{ ev := RawEvent.deleted Scen.pA false, now := 0, fs := Scen.fsNone },
       { ev := RawEvent.created Scen.pB false, now := 5, fs := Scen.fsB }])).1
      = [{ time := 5, path := Scen.pB, isDirectory := false, isDelete := false,
           unmatched := true }]) :=
  flush_reports_pending_standalone (pendingDeleteState Scen.pQ 0) Scen.cfgB
    Scen.fsNone Scen.fsB 0 5 Scen.pA Scen.pB (by decide) (by decide)
    (by decide) (by decide) (by decide)

/-! ### C10: the chain scan consults only markers and the last ten
events -/

/-- C10: the chain-move check on a create consults only the
ProcessedFileMarker table and the ten most recently emitted move events:
when no marker entry is young, same-named and distinct, and none of the
last ten events has a young matching `new_name` with a distinct `new_path`,
the create emits no chain move event at all — even if an older emission (or
an expired marker) recorded a matching location within
`2 x correlation_window`. -/
theorem chain_scan_restricted_to_recent (cfg : Config) (fs : Fs) (now : ℤ)
    (p : FsPath) (s : HState)
    (hproc : ∀ kv ∈ s.directoryProcessedFiles,
      ¬(now - kv.2 < cfg.timeout * 2 ∧ pathName kv.1 = pathName p ∧ kv.1 ≠ p))
    (hev : ∀ e ∈ lastN 10 s.moveEvents,
      ¬(e.newName = pathName p ∧ e.newPath ≠ p ∧
        now - e.time < cfg.timeout * 2)) :
    (onCreated cfg fs now p false s).moveEvents.filter (fun e => e.chainMove)
      = s.moveEvents.filter (fun e => e.chainMove) := by
  have hrl : recentLocations cfg.timeout now
      (cleanExpiredEvents cfg.timeout now s) p = [] := by
    unfold recentLocations
    have h1 : (cleanExpiredEvents cfg.timeout now
        s).directoryProcessedFiles.filter (fun kv =>
          decide (now - kv.2 < cfg.timeout * 2) && pathName kv.1 == pathName p
            && !(kv.1 == p)) = [] := by
      rw [List.filter_eq_nil_iff]
      intro kv hkv
      have h := hproc kv (cleanExpired_processed_sub hkv)
      intro hc
      apply h
      simp only [Bool.and_eq_true, decide_eq_true_eq, beq_iff_eq,
        Bool.not_eq_true', beq_eq_false_iff_ne] at hc
      exact ⟨hc.1.1, hc.1.2, hc.2⟩
    have h2 : ((lastN 10 (cleanExpiredEvents cfg.timeout now
        s).moveEvents).reverse.filter (fun e =>
          e.newName == pathName p && !(e.newPath == p)
            && decide (now - e.time < cfg.timeout * 2))) = [] := by
      rw [List.filter_eq_nil_iff]
      intro e he
      have h := hev e (List.mem_reverse.mp he)
      intro hc
      apply h
      simp only [Bool.and_eq_true, decide_eq_true_eq, beq_iff_eq,
        Bool.not_eq_true', beq_eq_false_iff_ne] at hc
      exact ⟨hc.1.1, hc.1.2, hc.2⟩
    rw [h1, h2]
    rfl
  rw [onCreated]
  by_cases hIgn : shouldIgnorePath cfg.ignoreMatchers p = true
  · rw [if_pos hIgn]
  · rw [if_neg hIgn]
    by_cases hTrk : (!false && !shouldTrackFile cfg.extensions p) = true
    · rw [if_pos hTrk]
    · rw [if_neg hTrk]
      rw [tryCorrelateEvents]
      by_cases hMark : processedValid cfg.timeout now
          (cleanExpiredEvents cfg.timeout now s) p = true
      · rw [if_pos hMark]
        rfl
      · rw [if_neg hMark]
        have hcl : (if !false && !processedMatch cfg.timeout now
              (cleanExpiredEvents cfg.timeout now s) p then
            recentLocations cfg.timeout now
              (cleanExpiredEvents cfg.timeout now s) p
          else []) = [] := by
          by_cases hpm : processedMatch cfg.timeout now
              (cleanExpiredEvents cfg.timeout now s) p = true
          · rw [hpm]
            rfl
          · rw [Bool.not_eq_true] at hpm
            rw [hpm]
            exact hrl
        rw [hcl]
        rcases hscan : scanPendingDeletes cfg fs now
            (cleanExpiredEvents cfg.timeout now s) p false
            (cleanExpiredEvents cfg.timeout now s).pendingDeletes
          with _ | ⟨dp, _ | e⟩
        · simp only [hscan]
          rfl
        · simp only [hscan]
          rfl
        · simp only [hscan]
          have hch : e.chainMove = false := by
            rw [(scanPendingDeletes_some hscan).2 e rfl]
            rfl
          show ((cleanExpiredEvents cfg.timeout now s).moveEvents
            ++ [e]).filter (fun e => e.chainMove)
            = s.moveEvents.filter (fun e => e.chainMove)
          rw [List.filter_append]
          simp only [List.filter_cons, hch, Bool.false_eq_true, if_false,
            List.filter_nil, List.append_nil]
          rfl

/-- C10 witness: an eleven-event history whose only matching emission is
the oldest one (eleven emissions in the past) and whose marker table is
empty: the create of `v/x.blend` triggers no chain event. -/
theorem chain_scan_restricted_to_recent_witness :
    (onCreated Scen.cfgB Scen.fsX4 1 Scen.pX4 false
      Scen.sEleven).moveEvents.filter (fun e => e.chainMove)
      = Scen.sEleven.moveEvents.filter (fun e => e.chainMove) :=
  chain_scan_restricted_to_recent Scen.cfgB Scen.fsX4 1 Scen.pX4 Scen.sEleven
    (by decide) (by decide)

/-! ### Structural lemmas for the trace invariants -/

theorem isPrefixOf_exists_append {a b : FsPath} (h : a.isPrefixOf b = true) :
    ∃ t, b = a ++ t := by
  obtain ⟨t, ht⟩ := List.isPrefixOf_iff_prefix.mp h
  exact ⟨t, ht.symm⟩

theorem findFilesByExtension_mem {fs : Fs} {dir : FsPath}
    {exts : List String} {f : FsPath}
    (h : f ∈ findFilesByExtension fs dir exts) :
    dir.isPrefixOf f = true ∧ f ≠ dir := by
  unfold findFilesByExtension at h
  rcases List.mem_flatten.mp h with ⟨l, hl, hf⟩
  rcases List.mem_map.mp hl with ⟨ext, -, hext⟩
  rw [← hext] at hf
  have := (List.mem_filter.mp hf).2
  simp only [Bool.and_eq_true, Bool.not_eq_true', beq_eq_false_iff_ne] at this
  exact ⟨this.1.1, this.1.2⟩

theorem expandFold_events (now : ℤ) (src dest : FsPath) (files : List FsPath)
    (st : HState) :
    ∀ e ∈ (files.foldl (expandStep now src dest) st).moveEvents,
      e ∈ st.moveEvents ∨ ∃ f ∈ files, dest.isPrefixOf f = true ∧
        e = mkExpansionEvent now src dest f := by
  induction files generalizing st with
  | nil =>
    intro e he
    exact Or.inl he
  | cons f rest ih =>
    intro e he
    rw [List.foldl_cons] at he
    rcases ih (expandStep now src dest st f) e he with h | ⟨f2, hf2, hp, hee⟩
    · unfold expandStep at h
      split at h
      · rename_i hpre
        rcases List.mem_append.mp h with h1 | h1
        · exact Or.inl h1
        · exact Or.inr ⟨f, List.mem_cons_self _ _, hpre,
            List.mem_singleton.mp h1⟩
      · exact Or.inl h
    · exact Or.inr ⟨f2, List.mem_cons_of_mem _ hf2, hp, hee⟩

theorem expandFold_pendings_unchanged (now : ℤ) (src dest : FsPath)
    (files : List FsPath) (st : HState) :
    (files.foldl (expandStep now src dest) st).pendingDeletes
      = st.pendingDeletes ∧
    (files.foldl (expandStep now src dest) st).pendingCreates
      = st.pendingCreates := by
  induction files generalizing st with
  | nil => exact ⟨rfl, rfl⟩
  | cons f rest ih =>
    rw [List.foldl_cons]
    rcases ih (expandStep now src dest st f) with ⟨h1, h2⟩
    constructor
    · rw [h1]
      unfold expandStep
      split <;> rfl
    · rw [h2]
      unfold expandStep
      split <;> rfl

theorem renamedConsistent_direct (now : ℤ) (src dest : FsPath) :
    renamedConsistent (mkDirectEvent now src dest) := by
  unfold renamedConsistent mkDirectEvent
  by_cases h : pathParent src = pathParent dest
  · rw [if_pos h]
    simpa [EventType.isRenamed] using h
  · rw [if_neg h]
    simpa [EventType.isRenamed] using h

theorem renamedConsistent_chain (now : ℤ) (q p : FsPath) :
    renamedConsistent (mkChainEvent now q p) := by
  unfold renamedConsistent mkChainEvent
  by_cases h : pathParent q = pathParent p
  · rw [if_pos h]
    simpa [EventType.isRenamed] using h
  · rw [if_neg h]
    simpa [EventType.isRenamed] using h

theorem renamedConsistent_corr (now : ℤ) (delPath p : FsPath) (isDir : Bool) :
    renamedConsistent (mkCorrEvent now delPath p isDir) := by
  unfold renamedConsistent mkCorrEvent
  by_cases h : pathParent delPath = pathParent p
  · rw [if_pos h]
    cases isDir <;> simpa [EventType.isRenamed] using h
  · rw [if_neg h]
    cases isDir <;> simpa [EventType.isRenamed] using h

theorem renamedConsistent_expansion {now : ℤ} {src dest f : FsPath}
    (hne : src ≠ dest) (hpre : dest.isPrefixOf f = true) (hneq : f ≠ dest) :
    renamedConsistent (mkExpansionEvent now src dest f) := by
  obtain ⟨t, ht⟩ := isPrefixOf_exists_append hpre
  have htne : t ≠ [] := by
    rintro rfl
    rw [List.append_nil] at ht
    exact hneq ht
  unfold renamedConsistent mkExpansionEvent
  simp only [EventType.isRenamed]
  constructor
  · intro h
    cases h
  · intro h
    exfalso
    rw [ht] at h
    rw [List.drop_left] at h
    unfold pathParent at h
    rw [List.dropLast_append_of_ne_nil _ htne,
      List.dropLast_append_of_ne_nil _ htne] at h
    exact hne (List.append_cancel_right h)

theorem onMoved_file_cases (cfg : Config) (fs : Fs) (now : ℤ)
    (src dest : FsPath) (s : HState) :
    onMoved cfg fs now src dest false s = s ∨
    (shouldIgnorePath cfg.ignoreMatchers src = false ∧
     shouldIgnorePath cfg.ignoreMatchers dest = false ∧
     onMoved cfg fs now src dest false s =
       { s with moveEvents := s.moveEvents ++ [mkDirectEvent now src dest] }) := by
  rw [onMoved]
  by_cases h1 : (shouldIgnorePath cfg.ignoreMatchers src
      || shouldIgnorePath cfg.ignoreMatchers dest) = true
  · rw [if_pos h1]
    exact Or.inl rfl
  · rw [if_neg h1]
    rw [Bool.or_eq_true, not_or] at h1
    have hsrc : shouldIgnorePath cfg.ignoreMatchers src = false :=
      Bool.not_eq_true _ ▸ h1.1
    have hdest : shouldIgnorePath cfg.ignoreMatchers dest = false :=
      Bool.not_eq_true _ ▸ h1.2
    rw [if_neg (by intro h; cases h)]
    by_cases h2 : (!shouldTrackFile cfg.extensions src
        && !shouldTrackFile cfg.extensions dest) = true
    · rw [if_pos h2]
      exact Or.inl rfl
    · rw [if_neg h2]
      by_cases h3 : s.recentDirectoryMoves.any (fun od =>
          od.1.isPrefixOf src && od.2.isPrefixOf dest
            && decide (src.drop od.1.length = dest.drop od.2.length)) = true
      · rw [if_pos h3]
        exact Or.inl rfl
      · rw [if_neg h3]
        exact Or.inr ⟨hsrc, hdest, rfl⟩

theorem onMoved_dir_events (cfg : Config) (fs : Fs) (now : ℤ)
    (src dest : FsPath) (s : HState) :
    ∀ e ∈ (onMoved cfg fs now src dest true s).moveEvents,
      e ∈ s.moveEvents ∨ ∃ f ∈ findFilesByExtension fs dest cfg.extensions,
        dest.isPrefixOf f = true ∧ e = mkExpansionEvent now src dest f := by
  rw [onMoved]
  by_cases h1 : (shouldIgnorePath cfg.ignoreMatchers src
      || shouldIgnorePath cfg.ignoreMatchers dest) = true
  · rw [if_pos h1]
    intro e he
    exact Or.inl he
  · rw [if_neg h1]
    rw [if_pos rfl]
    intro e he
    rcases expandFold_events now src dest
        (findFilesByExtension fs dest cfg.extensions)
        (dirMoveRecorded src dest s) e he with h | h
    · exact Or.inl h
    · exact Or.inr h

theorem tryCorrelate_delete_moveEvents (cfg : Config) (fs : Fs) (now : ℤ)
    (p : FsPath) (isDir : Bool) (s : HState) :
    (tryCorrelateEvents cfg fs now p isDir true s).moveEvents
      = s.moveEvents := by
  rw [tryCorrelateEvents]
  split
  · rfl
  · rfl

theorem onDeleted_moveEvents (cfg : Config) (fs : Fs) (now : ℤ) (p : FsPath)
    (isDir : Bool) (s : HState) :
    (onDeleted cfg fs now p isDir s).moveEvents = s.moveEvents := by
  rw [onDeleted]
  split
  · rfl
  · split
    · rfl
    · rw [tryCorrelate_delete_moveEvents]
      rfl

theorem recentLocations_mem {timeout now : ℤ} {s : HState} {p q : FsPath}
    (h : q ∈ recentLocations timeout now s p) :
    (∃ t, (q, t) ∈ s.directoryProcessedFiles) ∨
      (∃ e ∈ s.moveEvents, q = e.newPath) := by
  unfold recentLocations at h
  rcases List.mem_append.mp h with h1 | h1
  · rcases List.mem_map.mp h1 with ⟨kv, hkv, hq⟩
    left
    refine ⟨kv.2, ?_⟩
    rw [← hq]
    exact List.mem_of_mem_filter hkv
  · rcases List.mem_map.mp h1 with ⟨e, he, hq⟩
    right
    refine ⟨e, ?_, hq.symm⟩
    have h2 := List.mem_of_mem_filter he
    have h3 := List.mem_reverse.mp h2
    exact List.mem_of_mem_drop h3

theorem onCreated_events_cases (cfg : Config) (fs : Fs) (now : ℤ)
    (p : FsPath) (isDir : Bool) (s : HState) :
    (onCreated cfg fs now p isDir s).moveEvents = s.moveEvents ∨
    (isDir = false ∧ ∃ q, q ∈ recentLocations cfg.timeout now
        (cleanExpiredEvents cfg.timeout now s) p ∧
      (onCreated cfg fs now p isDir s).moveEvents
        = s.moveEvents ++ [mkChainEvent now q p]) ∨
    (∃ dp dd, (dp, dd) ∈ (cleanExpiredEvents cfg.timeout now s).pendingDeletes ∧
      (onCreated cfg fs now p isDir s).moveEvents
        = s.moveEvents ++ [mkCorrEvent now dp p isDir]) := by
  rw [onCreated]
  split
  · exact Or.inl rfl
  · split
    · exact Or.inl rfl
    · rw [tryCorrelateEvents]
      split
      · exact Or.inl rfl
      · rcases hcl : (if !isDir && !processedMatch cfg.timeout now
              (cleanExpiredEvents cfg.timeout now s) p then
            recentLocations cfg.timeout now
              (cleanExpiredEvents cfg.timeout now s) p
          else []) with _ | ⟨q, rest⟩
        · rcases hscan : scanPendingDeletes cfg fs now
              (cleanExpiredEvents cfg.timeout now s) p isDir
              (cleanExpiredEvents cfg.timeout now s).pendingDeletes
            with _ | ⟨dp, _ | e⟩
          · simp only [hscan]
            exact Or.inl rfl
          · simp only [hscan]
            exact Or.inl rfl
          · simp only [hscan]
            rcases scanPendingDeletes_some hscan with ⟨⟨dd, hdd⟩, he⟩
            refine Or.inr (Or.inr ⟨dp, dd, hdd, ?_⟩)
            rw [he e rfl]
            rfl
        · have hisdir : isDir = false := by
            by_cases hd : (!isDir && !processedMatch cfg.timeout now
                (cleanExpiredEvents cfg.timeout now s) p) = true
            · rcases Bool.and_eq_true .. |>.mp hd with ⟨hd1, -⟩
              simpa using hd1
            · rw [if_neg hd] at hcl
              cases hcl
          have hq : q ∈ recentLocations cfg.timeout now
              (cleanExpiredEvents cfg.timeout now s) p := by
            by_cases hd : (!isDir && !processedMatch cfg.timeout now
                (cleanExpiredEvents cfg.timeout now s) p) = true
            · rw [if_pos hd] at hcl
              rw [hcl]
              exact List.mem_cons_self _ _
            · rw [if_neg hd] at hcl
              cases hcl
          exact Or.inr (Or.inl ⟨hisdir, q, hq, rfl⟩)

/-! ### C5: event kind versus parent directories -/

theorem stepNotif_renamedConsistent (cfg : Config) (s : HState) (n : Notif)
    (hn : dirMoveProper n = true)
    (ih : ∀ e ∈ s.moveEvents, renamedConsistent e) :
    ∀ e ∈ (stepNotif cfg s n).moveEvents, renamedConsistent e := by
  obtain ⟨ev, now, fs⟩ := n
  cases ev with
  | moved src dest isDir =>
    cases isDir with
    | false =>
      intro e he
      have he2 : e ∈ (onMoved cfg fs now src dest false s).moveEvents := he
      rcases onMoved_file_cases cfg fs now src dest s with h | ⟨-, -, h⟩
      · rw [h] at he2
        exact ih e he2
      · rw [h] at he2
        rcases List.mem_append.mp he2 with h1 | h1
        · exact ih e h1
        · rw [List.mem_singleton.mp h1]
          exact renamedConsistent_direct now src dest
    | true =>
      have hne : src ≠ dest := by
        simp only [dirMoveProper] at hn
        simpa using hn
      intro e he
      have he2 : e ∈ (onMoved cfg fs now src dest true s).moveEvents := he
      rcases onMoved_dir_events cfg fs now src dest s e he2
        with h | ⟨f, hf, hpre, hee⟩
      · exact ih e h
      · rw [hee]
        exact renamedConsistent_expansion hne hpre
          (findFilesByExtension_mem hf).2
  | deleted p isDir =>
    intro e he
    have he2 : e ∈ (onDeleted cfg fs now p isDir s).moveEvents := he
    rw [onDeleted_moveEvents] at he2
    exact ih e he2
  | created p isDir =>
    intro e he
    have he2 : e ∈ (onCreated cfg fs now p isDir s).moveEvents := he
    rcases onCreated_events_cases cfg fs now p isDir s
      with h | ⟨-, q, -, h⟩ | ⟨dp, dd, -, h⟩
    · rw [h] at he2
      exact ih e he2
    · rw [h] at he2
      rcases List.mem_append.mp he2 with h1 | h1
      · exact ih e h1
      · rw [List.mem_singleton.mp h1]
        exact renamedConsistent_chain now q p
    · rw [h] at he2
      rcases List.mem_append.mp he2 with h1 | h1
      · exact ih e h1
      · rw [List.mem_singleton.mp h1]
        exact renamedConsistent_corr now dp p isDir

/-- C5 counterexample: deleting `d/a.blend` and re-creating the SAME path
one second later correlates the pair into `MoveEvent(P, P, file_renamed)`:
the engine emits a move event with `old_path = new_path`, refuting the
claimed invariant `old_path ≠ new_path`. -/
theorem move_event_old_eq_new_counterexample :
    (runTrace Scen.cfgB
      [{ ev := RawEvent.deleted Scen.pP false, now := 0, fs := Scen.fsNone },
       { ev := RawEvent.created Scen.pP false, now := 1,
         fs := Scen.fsP }]).moveEvents =
      [{ time := 1, etype := EventType.fileRenamed, oldPath := Scen.pP,
         newPath := Scen.pP, oldName := "a.blend", newName := "a.blend",
         isDirectory := false, correlated := true, chainMove := false }] := by
  decide

/-- C5 amended: in every trace whose directory-move notifications have
distinct source and destination, every emitted move event has a `renamed`
kind exactly when the parent of `old_path` equals the parent of `new_path`
(per-file directory-expansion events are always `moved`, and their parents
indeed differ). The other half of the claimed invariant,
`old_path ≠ new_path`, does not hold: correlating a delete and a re-create
of the same path emits `MoveEvent(P, P)`. -/
theorem renamed_iff_same_parent (cfg : Config) (ns : List Notif)
    (hn : ns.all dirMoveProper = true) :
    ∀ e ∈ (runTrace cfg ns).moveEvents,
      (e.etype.isRenamed = true ↔
        pathParent e.oldPath = pathParent e.newPath) := by
  suffices h : ∀ (l : List Notif) (s : HState),
      l.all dirMoveProper = true →
      (∀ e ∈ s.moveEvents, renamedConsistent e) →
      ∀ e ∈ (l.foldl (stepNotif cfg) s).moveEvents, renamedConsistent e by
    exact h ns initialState hn (fun e he => absurd he (List.not_mem_nil e))
  intro l
  induction l with
  | nil =>
    intro s _ ih
    exact ih
  | cons x xs ihl =>
    intro s hall ih
    rw [List.all_cons, Bool.and_eq_true] at hall
    rw [List.foldl_cons]
    exact ihl (stepNotif cfg s x) hall.2
      (stepNotif_renamedConsistent cfg s x hall.1 ih)

/-- C5 witness: the kind/parent consistency at the direct rename of
`d/a.txt` to `d/a.blend` emitted by a one-notification trace. -/
theorem renamed_iff_same_parent_witness :
    (({ time := 0, etype := EventType.fileRenamed, oldPath := Scen.pt,
        newPath := Scen.pb, oldName := "a.txt", newName := "a.blend",
        isDirectory := false, correlated := false,
        chainMove := false } : MoveEventRec).etype.isRenamed = true ↔
      pathParent
        ({ time := 0, etype := EventType.fileRenamed, oldPath := Scen.pt,
           newPath := Scen.pb, oldName := "a.txt", newName := "a.blend",
           isDirectory := false, correlated := false,
           chainMove := false } : MoveEventRec).oldPath =
      pathParent
        ({ time := 0, etype := EventType.fileRenamed, oldPath := Scen.pt,
           newPath := Scen.pb, oldName := "a.txt", newName := "a.blend",
           isDirectory := false, correlated := false,
           chainMove := false } : MoveEventRec).newPath) :=
  renamed_iff_same_parent Scen.cfgB
    [{ ev := RawEvent.moved Scen.pt Scen.pb false, now := 0,
       fs := Scen.fsNone }]
    (by decide) _ (by decide)

/-! ### C3: filtered paths in emitted events -/

theorem tryCorrelate_processed_eq (cfg : Config) (fs : Fs) (now : ℤ)
    (p : FsPath) (isDir isDelete : Bool) (s : HState) :
    (tryCorrelateEvents cfg fs now p isDir
        isDelete s).directoryProcessedFiles
      = s.directoryProcessedFiles := by
  rw [tryCorrelateEvents]
  split
  · rfl
  · split
    · rfl
    · split
      · rcases recentLocations cfg.timeout now s p with _ | ⟨q, qs⟩
        · rcases scanPendingDeletes cfg fs now s p isDir s.pendingDeletes
            with _ | ⟨dp, _ | e⟩
          · rfl
          · rfl
          · rfl
        · rfl
      · rcases scanPendingDeletes cfg fs now s p isDir s.pendingDeletes
          with _ | ⟨dp, _ | e⟩
        · rfl
        · rfl
        · rfl

theorem tryCorrelate_pendingDeletes_eq (cfg : Config) (fs : Fs) (now : ℤ)
    (p : FsPath) (isDir isDelete : Bool) (s : HState) :
    (tryCorrelateEvents cfg fs now p isDir isDelete s).pendingDeletes
        = s.pendingDeletes ∨
      (isDelete = true ∧
        (tryCorrelateEvents cfg fs now p isDir isDelete s).pendingDeletes
          = dictInsert p
            { time := now, path := p, isDirectory := isDir, isDelete := true,
              unmatched := false } s.pendingDeletes) ∨
      (∃ dp, (tryCorrelateEvents cfg fs now p isDir isDelete s).pendingDeletes
          = dictDelete dp s.pendingDeletes) := by
  rw [tryCorrelateEvents]
  split
  · exact Or.inl rfl
  · split
    · rename_i hdel
      exact Or.inr (Or.inl ⟨hdel, rfl⟩)
    · split
      · rcases recentLocations cfg.timeout now s p with _ | ⟨q, qs⟩
        · rcases scanPendingDeletes cfg fs now s p isDir s.pendingDeletes
            with _ | ⟨dp, _ | e⟩
          · exact Or.inl rfl
          · exact Or.inr (Or.inr ⟨dp, rfl⟩)
          · exact Or.inr (Or.inr ⟨dp, rfl⟩)
        · exact Or.inl rfl
      · rcases scanPendingDeletes cfg fs now s p isDir s.pendingDeletes
          with _ | ⟨dp, _ | e⟩
        · exact Or.inl rfl
        · exact Or.inr (Or.inr ⟨dp, rfl⟩)
        · exact Or.inr (Or.inr ⟨dp, rfl⟩)

theorem tryCorrelate_pendingDeletes_cases (cfg : Config) (fs : Fs) (now : ℤ)
    (p : FsPath) (isDir isDelete : Bool) (s : HState) :
    ∀ kv ∈ (tryCorrelateEvents cfg fs now p isDir isDelete s).pendingDeletes,
      kv ∈ s.pendingDeletes ∨ (isDelete = true ∧ kv.1 = p) := by
  intro kv hkv
  rcases tryCorrelate_pendingDeletes_eq cfg fs now p isDir isDelete s
    with h | ⟨hdel, h⟩ | ⟨dp, h⟩
  · rw [h] at hkv
    exact Or.inl hkv
  · rw [h] at hkv
    rcases mem_dictInsert_elim hkv with h1 | h1
    · exact Or.inl h1
    · exact Or.inr ⟨hdel, h1⟩
  · rw [h] at hkv
    exact Or.inl (mem_dictDelete_elim hkv)

theorem onDeleted_processed_sub (cfg : Config) (fs : Fs) (now : ℤ)
    (p : FsPath) (isDir : Bool) (s : HState) :
    ∀ kv ∈ (onDeleted cfg fs now p isDir s).directoryProcessedFiles,
      kv ∈ s.directoryProcessedFiles := by
  rw [onDeleted]
  split
  · intro kv hkv
    exact hkv
  · split
    · intro kv hkv
      exact hkv
    · intro kv hkv
      rw [tryCorrelate_processed_eq] at hkv
      exact cleanExpired_processed_sub hkv

theorem onCreated_processed_sub (cfg : Config) (fs : Fs) (now : ℤ)
    (p : FsPath) (isDir : Bool) (s : HState) :
    ∀ kv ∈ (onCreated cfg fs now p isDir s).directoryProcessedFiles,
      kv ∈ s.directoryProcessedFiles := by
  rw [onCreated]
  split
  · intro kv hkv
    exact hkv
  · split
    · intro kv hkv
      exact hkv
    · intro kv hkv
      rw [tryCorrelate_processed_eq] at hkv
      exact cleanExpired_processed_sub hkv

theorem onDeleted_pendingDeletes_cases (cfg : Config) (fs : Fs) (now : ℤ)
    (p : FsPath) (isDir : Bool) (s : HState) :
    ∀ kv ∈ (onDeleted cfg fs now p isDir s).pendingDeletes,
      kv ∈ s.pendingDeletes ∨
        (kv.1 = p ∧ shouldIgnorePath cfg.ignoreMatchers p = false) := by
  rw [onDeleted]
  split
  · intro kv hkv
    exact Or.inl hkv
  · rename_i hIgn
    split
    · intro kv hkv
      exact Or.inl hkv
    · intro kv hkv
      rcases tryCorrelate_pendingDeletes_cases cfg fs now p isDir true _
          kv hkv with h1 | ⟨-, hk⟩
      · exact Or.inl (cleanExpired_pendingDeletes_sub h1)
      · refine Or.inr ⟨hk, ?_⟩
        simpa using hIgn

theorem onCreated_pendingDeletes_sub (cfg : Config) (fs : Fs) (now : ℤ)
    (p : FsPath) (isDir : Bool) (s : HState) :
    ∀ kv ∈ (onCreated cfg fs now p isDir s).pendingDeletes,
      kv ∈ s.pendingDeletes := by
  rw [onCreated]
  split
  · intro kv hkv
    exact hkv
  · split
    · intro kv hkv
      exact hkv
    · intro kv hkv
      rcases tryCorrelate_pendingDeletes_cases cfg fs now p isDir false _
          kv hkv with h1 | ⟨hfalse, -⟩
      · exact cleanExpired_pendingDeletes_sub h1
      · cases hfalse

theorem onCreated_ignored (cfg : Config) (fs : Fs) (now : ℤ) (p : FsPath)
    (isDir : Bool) (s : HState)
    (h : shouldIgnorePath cfg.ignoreMatchers p = true) :
    onCreated cfg fs now p isDir s = s := by
  rw [onCreated, if_pos h]

theorem onCreated_untracked (cfg : Config) (fs : Fs) (now : ℤ) (p : FsPath)
    (isDir : Bool) (s : HState)
    (hIgn : ¬ shouldIgnorePath cfg.ignoreMatchers p = true)
    (hg : (!isDir && !shouldTrackFile cfg.extensions p) = true) :
    onCreated cfg fs now p isDir s = s := by
  rw [onCreated, if_neg hIgn, if_pos hg]

theorem stepNotif_noIgnored (cfg : Config) (s : HState) (n : Notif)
    (hn : isDirMoveNotif n = false) (ih : noIgnoredPaths cfg s) :
    noIgnoredPaths cfg (stepNotif cfg s n) := by
  obtain ⟨ev, now, fs⟩ := n
  cases ev with
  | moved src dest isDir =>
    cases isDir with
    | true => simp [isDirMoveNotif] at hn
    | false =>
      show noIgnoredPaths cfg (onMoved cfg fs now src dest false s)
      rcases onMoved_file_cases cfg fs now src dest s
        with h | ⟨hsrc, hdest, h⟩
      · rw [h]
        exact ih
      · rw [h]
        refine ⟨?_, ih.2.1, ih.2.2⟩
        intro e he
        rcases List.mem_append.mp he with h1 | h1
        · exact ih.1 e h1
        · rw [List.mem_singleton.mp h1]
          exact ⟨hsrc, hdest⟩
  | deleted p isDir =>
    show noIgnoredPaths cfg (onDeleted cfg fs now p isDir s)
    refine ⟨?_, ?_, ?_⟩
    · intro e he
      rw [onDeleted_moveEvents] at he
      exact ih.1 e he
    · intro kv hkv
      rcases onDeleted_pendingDeletes_cases cfg fs now p isDir s kv hkv
        with h1 | ⟨hk, hig⟩
      · exact ih.2.1 kv h1
      · rw [hk]
        exact hig
    · intro kv hkv
      exact ih.2.2 kv (onDeleted_processed_sub cfg fs now p isDir s kv hkv)
  | created p isDir =>
    show noIgnoredPaths cfg (onCreated cfg fs now p isDir s)
    by_cases hIgn : shouldIgnorePath cfg.ignoreMatchers p = true
    · rw [onCreated_ignored cfg fs now p isDir s hIgn]
      exact ih
    · by_cases hg : (!isDir && !shouldTrackFile cfg.extensions p) = true
      · rw [onCreated_untracked cfg fs now p isDir s hIgn hg]
        exact ih
      · have hIgnF : shouldIgnorePath cfg.ignoreMatchers p = false := by
          simpa using hIgn
        refine ⟨?_, ?_, ?_⟩
        · intro e he
          rcases onCreated_events_cases cfg fs now p isDir s
            with h | ⟨-, q, hq, h⟩ | ⟨dp, dd, hdd, h⟩
          · rw [h] at he
            exact ih.1 e he
          · rw [h] at he
            rcases List.mem_append.mp he with h1 | h1
            · exact ih.1 e h1
            · rw [List.mem_singleton.mp h1]
              refine ⟨?_, hIgnF⟩
              rcases recentLocations_mem hq with ⟨t, hqt⟩ | ⟨e2, he2, hq2⟩
              · exact ih.2.2 (q, t) (cleanExpired_processed_sub hqt)
              · have he3 : e2 ∈ s.moveEvents := he2
                rw [hq2]
                exact (ih.1 e2 he3).2
          · rw [h] at he
            rcases List.mem_append.mp he with h1 | h1
            · exact ih.1 e h1
            · rw [List.mem_singleton.mp h1]
              exact ⟨ih.2.1 (dp, dd) (cleanExpired_pendingDeletes_sub hdd),
                hIgnF⟩
        · intro kv hkv
          exact ih.2.1 kv (onCreated_pendingDeletes_sub cfg fs now p isDir s
            kv hkv)
        · intro kv hkv
          exact ih.2.2 kv (onCreated_processed_sub cfg fs now p isDir s
            kv hkv)

/-- C3 counterexample: two filtered paths appear in emitted move events.
(1) Extension filter: with only `.blend` tracked, `moved(d/a.txt,
d/a.blend)` passes the filter because ONE side is trackable, and the
emitted event carries the untracked path `d/a.txt` as `old_path`.
(2) Ignore filter: a pattern matching `secret.blend` does not match the
moved directories `d1`, `d2`, so the expansion of the directory move emits
a per-file event carrying the ignored path `d2/secret.blend`. -/
theorem filtered_path_event_counterexample :
    ((runTrace Scen.cfgB
        [{ ev := RawEvent.moved Scen.pt Scen.pb false, now := 0,
           fs := Scen.fsNone }]).moveEvents.map
        (fun e => e.oldPath) = [Scen.pt] ∧
      shouldTrackFile Scen.cfgB.extensions Scen.pt = false) ∧
    ((runTrace Scen.cfgI
        [{ ev := RawEvent.moved Scen.d1 Scen.d2 true, now := 0,
           fs := Scen.fsI }]).moveEvents.map
        (fun e => e.newPath) = [Scen.fsec] ∧
      shouldIgnorePath Scen.cfgI.ignoreMatchers Scen.fsec = true) :=
  ⟨⟨by decide, by decide⟩, ⟨by decide, by decide⟩⟩

/-- C3 amended: the guarantee that survives is for the ignore patterns in
traces without directory-level moves: there, no emitted move event ever
carries an ignored path as `old_path` or `new_path`. The claim fails in
general: a direct file move with exactly one trackable side emits an event
carrying the untracked path, and the per-file events of a directory-move
expansion are checked against the ignore patterns only at directory level,
so an ignored file inside a moved directory can appear. -/
theorem ignored_paths_absent_without_directory_moves (cfg : Config)
    (ns : List Notif)
    (hnd : ns.all (fun n => !isDirMoveNotif n) = true) :
    ∀ e ∈ (runTrace cfg ns).moveEvents,
      shouldIgnorePath cfg.ignoreMatchers e.oldPath = false ∧
      shouldIgnorePath cfg.ignoreMatchers e.newPath = false := by
  suffices h : ∀ (l : List Notif) (s : HState),
      l.all (fun n => !isDirMoveNotif n) = true →
      noIgnoredPaths cfg s →
      noIgnoredPaths cfg (l.foldl (stepNotif cfg) s) by
    have h0 : noIgnoredPaths cfg initialState :=
      ⟨fun e he => absurd he (List.not_mem_nil e),
       fun kv hkv => absurd hkv (List.not_mem_nil kv),
       fun kv hkv => absurd hkv (List.not_mem_nil kv)⟩
    exact (h ns initialState hnd h0).1
  intro l
  induction l with
  | nil =>
    intro s _ ih
    exact ih
  | cons x xs ihl =>
    intro s hall ih
    rw [List.all_cons, Bool.and_eq_true] at hall
    rw [List.foldl_cons]
    refine ihl (stepNotif cfg s x) hall.2 (stepNotif_noIgnored cfg s x ?_ ih)
    simpa using hall.1

/-- C3 witness: the amended guarantee at the delete/create correlation
trace: both paths of the emitted event are unignored. -/
theorem ignored_paths_absent_without_directory_moves_witness :
    shouldIgnorePath Scen.cfgB.ignoreMatchers
      ({ time := 1, etype := EventType.fileMoved, oldPath := Scen.pA,
         newPath := Scen.pB, oldName := "a.blend", newName := "a.blend",
         isDirectory := false, correlated := true,
         chainMove := false } : MoveEventRec).oldPath = false ∧
    shouldIgnorePath Scen.cfgB.ignoreMatchers
      ({ time := 1, etype := EventType.fileMoved, oldPath := Scen.pA,
         newPath := Scen.pB, oldName := "a.blend", newName := "a.blend",
         isDirectory := false, correlated := true,
         chainMove := false } : MoveEventRec).newPath = false :=
  ignored_paths_absent_without_directory_moves Scen.cfgB
    [{ ev := RawEvent.deleted Scen.pA false, now := 0, fs := Scen.fsNone },
     { ev := RawEvent.created Scen.pB false, now := 1, fs := Scen.fsB }]
    (by decide) _ (by decide)

end Blendwatch
